import Mathlib

/-!
Verification of the spanner change-stream watch engine
(`internal/datastore/spanner/watch.go`).

The Go code is shallowly embedded: dynamic `any` column values become an
explicit `ColValue` type (a Go map lookup that misses returns the nil
interface, which is indistinguishable from a stored JSON null, so both map
to `ColValue.nullv`); unchecked Go type assertions become an `Outcome`
value with a `panicked` constructor recording the assertion site; errors
returned from the decode path become the `failed` constructor.  External
collaborators (JSON unmarshalling, base64 decoding, protobuf
deserialization, the change-stream reader, the channel consumer) are
parameters of the model.
-/

namespace SpannerWatch

/-- Dynamic column value, modelling the Go `any` values found inside the
change record's string-keyed column maps.  `nullv` stands both for a stored
JSON null and for a missing map key (Go map indexing returns the nil
interface in both cases). -/
inductive ColValue where
  | nullv
  | str (s : String)
  | intv (n : Int)
  | boolv (b : Bool)
deriving DecidableEq

/-- String-keyed column map (Go `map[string]any` restricted to the scalar
values the watch code ever touches). -/
abbrev ColMap := List (String × ColValue)

/-- A Go `any` holding either a column map or something else; models the
`spanner.NullJSON.Value` fields of a change-record `Mod`. -/
inductive GoAny where
  | vmap (m : ColMap)
  | other (v : ColValue)
deriving DecidableEq

/-- Go map indexing `m[k]`: a missing key yields the nil interface. -/
def goIndex (m : ColMap) (k : String) : ColValue :=
  match m.lookup k with
  | some v => v
  | none => .nullv

/-! Table and column name constants.  The values live in the spanner
datastore's schema file, which is not part of the analysed source; only
their identities and distinctness matter to the watch code. -/

def tableRelationship : String := "relation_tuple"
def tableNamespace : String := "namespace_config"
def tableCaveat : String := "caveat"
def colNamespace : String := "namespace"
def colObjectID : String := "object_id"
def colRelation : String := "relation"
def colUsersetNamespace : String := "userset_namespace"
def colUsersetObjectID : String := "userset_object_id"
def colUsersetRelation : String := "userset_relation"
def colCaveatName : String := "caveat_name"
def colCaveatContext : String := "caveat_context"
def colNamespaceName : String := "namespace_name"
def colName : String := "name"
def colNamespaceConfig : String := "serialized_config"
def colCaveatDefinition : String := "serialized_definition"

/-- Stream name constant from the source. -/
def RelationTupleChangeStreamName : String := "relation_tuple_stream"
/-- Stream name constant from the source. -/
def SchemaChangeStreamName : String := "schema_change_stream"
/-- Stream name constant from the source. -/
def CombinedChangeStreamName : String := "combined_change_stream"

/-! Domain data model (`core.RelationTuple` and friends). -/

/-- One side of a relationship: namespace, object id, relation. -/
structure ObjectAndRelation where
  ns : String
  objectId : String
  relation : String
deriving DecidableEq

/-- Contextualized caveat: a caveat name plus an optional structured
context map (`common.ContextualizedCaveatFrom` is modelled as the
structured-map constructor it is specified to be). -/
structure ContextualizedCaveat where
  caveatName : String
  context : Option ColMap
deriving DecidableEq

/-- Relationship tuple with optional caveat. -/
structure RelationTuple where
  resourceAndRelation : ObjectAndRelation
  subject : ObjectAndRelation
  caveat : Option ContextualizedCaveat
deriving DecidableEq

/-- Relationship update operation (`core.RelationTupleUpdate_TOUCH` /
`core.RelationTupleUpdate_DELETE`). -/
inductive RelationTupleUpdateOp where
  | touch
  | delete
deriving DecidableEq

/-- Decoded namespace definition (opaque payload, identified by name). -/
structure NamespaceDefinition where
  name : String
deriving DecidableEq

/-- Decoded caveat definition (opaque payload, identified by name). -/
structure CaveatDefinition where
  name : String
deriving DecidableEq

/-- A decoded schema object of either kind. -/
inductive SchemaDefinition where
  | ns (d : NamespaceDefinition)
  | caveat (d : CaveatDefinition)
deriving DecidableEq

/-! Errors and panics. -/

/-- Terminal errors of a watch session. `invariantErr` models
`spiceerrors.MustBugf`; `watchCanceledErr` and `watchDisconnectedErr`
model `datastore.NewWatchCanceledErr()` / `NewWatchDisconnectedErr()`. -/
inductive WatchErr where
  | parseErr (db : String)
  | openErr (msg : String)
  | readErr (msg : String)
  | invariantErr (msg : String)
  | caveatContextParseErr
  | unableToReadConfigErr
  | watchDisconnectedErr
  | watchCanceledErr
deriving DecidableEq

/-- Site of an unchecked Go type assertion that can fail at runtime. -/
inductive PanicSite where
  | revisionTypeAssert
  | pkColumnAssert (col : String)
  | caveatNameAssert
  | caveatContextAssert
deriving DecidableEq

/-- Result of a fallible step: a runtime panic at a recorded site, a
returned error, or a value. -/
inductive Outcome (α : Type) where
  | panicked (site : PanicSite)
  | failed (e : WatchErr)
  | ok (a : α)
deriving DecidableEq

/-- Unchecked Go string type assertion `v.(string)` on a column value:
panics (at the given primary-key column site) unless the value is a
string. -/
def assertPKString (col : String) (v : ColValue) : Outcome String :=
  match v with
  | .str s => .ok s
  | _ => .panicked (.pkColumnAssert col)

/-- External decode capabilities the watch code delegates to:
`json.Unmarshal` into `map[string]any`, `base64.StdEncoding.DecodeString`,
and the protobuf `UnmarshalVT` of each schema-object kind.  `none` models
a returned decode error. -/
structure ExternalCodecs where
  jsonParse : String → Option ColMap
  base64Decode : String → Option (List Nat)
  unmarshalNamespace : List Nat → Option NamespaceDefinition
  unmarshalCaveat : List Nat → Option CaveatDefinition

/-- Embedding of `contextualizedCaveatFromValues` (watch.go lines
358-374): the caveat name is read with an unchecked string assertion
(panics when missing or not a string); an empty name yields no caveat; a
non-nil context value must be a string (unchecked assertion) holding JSON
that parses into a map, any parse error being returned. -/
def contextualizedCaveatFromValues (codecs : ExternalCodecs) (values : ColMap) :
    Outcome (Option ContextualizedCaveat) :=
  match goIndex values colCaveatName with
  | .str name =>
    if name ≠ "" then
      match goIndex values colCaveatContext with
      | .nullv => .ok (some { caveatName := name, context := none })
      | .str contextString =>
        match codecs.jsonParse contextString with
        | none => .failed .caveatContextParseErr
        | some ctx => .ok (some { caveatName := name, context := some ctx })
      | _ => .panicked .caveatContextAssert
    else .ok none
  | _ => .panicked .caveatNameAssert

/-- Embedding of the relation-tuple construction from the primary-key
column map (watch.go lines 163-174 and 232-243): six unchecked string
assertions, evaluated in source order, each able to panic. -/
def relationTupleFromPK (pk : ColMap) : Outcome RelationTuple :=
  match assertPKString colNamespace (goIndex pk colNamespace) with
  | .panicked s => .panicked s
  | .failed e => .failed e
  | .ok ns =>
    match assertPKString colObjectID (goIndex pk colObjectID) with
    | .panicked s => .panicked s
    | .failed e => .failed e
    | .ok objectId =>
      match assertPKString colRelation (goIndex pk colRelation) with
      | .panicked s => .panicked s
      | .failed e => .failed e
      | .ok relation =>
        match assertPKString colUsersetNamespace (goIndex pk colUsersetNamespace) with
        | .panicked s => .panicked s
        | .failed e => .failed e
        | .ok usersetNs =>
          match assertPKString colUsersetObjectID (goIndex pk colUsersetObjectID) with
          | .panicked s => .panicked s
          | .failed e => .failed e
          | .ok usersetObjectId =>
            match assertPKString colUsersetRelation (goIndex pk colUsersetRelation) with
            | .panicked s => .panicked s
            | .failed e => .failed e
            | .ok usersetRelation =>
              .ok { resourceAndRelation := { ns := ns, objectId := objectId, relation := relation }
                    subject := { ns := usersetNs, objectId := usersetObjectId, relation := usersetRelation }
                    caveat := none }

/-- One modification of a data change record (`changestreams.Mod`): keyed
before/after column snapshots, each a dynamic value expected to be a
map. -/
structure Mod where
  keys : GoAny
  newValues : GoAny
  oldValues : GoAny
deriving DecidableEq

/-- Typed domain event produced by decoding one modification; the commit
revision is attached by the caller. -/
inductive ChangeEvent where
  | relChange (op : RelationTupleUpdateOp) (t : RelationTuple)
  | deletedNamespace (name : String)
  | deletedCaveat (name : String)
  | changedDefinition (d : SchemaDefinition)
deriving DecidableEq

/-- Embedding of the per-modification decode step (watch.go lines
153-326).  Returns `ok none` when the modification is suppressed (the
`continue` for an unchanged-caveat relationship record), `ok (some e)`
when a domain event is produced, `failed` for errors returned to the read
callback, and `panicked` when an unchecked type assertion fails.  INSERT
falls through to the UPDATE branch exactly as in the source. -/
def processMod (codecs : ExternalCodecs) (modType tableName : String) (mod : Mod) :
    Outcome (Option ChangeEvent) :=
  match mod.keys with
  | .other _ => .failed (.invariantErr "error converting keys map")
  | .vmap primaryKeyColumnValues =>
    if modType = "DELETE" then
      if tableName = tableRelationship then
        match relationTupleFromPK primaryKeyColumnValues with
        | .panicked s => .panicked s
        | .failed e => .failed e
        | .ok relationTuple =>
          match mod.oldValues with
          | .other _ => .failed (.invariantErr "error converting old values map")
          | .vmap oldValues =>
            match contextualizedCaveatFromValues codecs oldValues with
            | .panicked s => .panicked s
            | .failed e => .failed e
            | .ok cav =>
              .ok (some (.relChange .delete { relationTuple with caveat := cav }))
      else if tableName = tableNamespace then
        match primaryKeyColumnValues.lookup colNamespaceName with
        | none => .failed (.invariantErr "missing namespace name value")
        | some v =>
          match v with
          | .str namespaceName => .ok (some (.deletedNamespace namespaceName))
          | _ => .failed (.invariantErr "error converting namespace name")
      else if tableName = tableCaveat then
        match primaryKeyColumnValues.lookup colNamespaceName with
        | none => .failed (.invariantErr "missing caveat name")
        | some v =>
          match v with
          | .str caveatName => .ok (some (.deletedCaveat caveatName))
          | _ => .failed (.invariantErr "error converting caveat name")
      else .failed (.invariantErr "unknown table name in delete of change stream")
    else if modType = "INSERT" ∨ modType = "UPDATE" then
      match mod.newValues with
      | .other _ => .failed (.invariantErr "error new values keys map")
      | .vmap newValues =>
        if tableName = tableRelationship then
          match relationTupleFromPK primaryKeyColumnValues with
          | .panicked s => .panicked s
          | .failed e => .failed e
          | .ok relationTuple =>
            match mod.oldValues with
            | .other _ => .failed (.invariantErr "error converting old values map")
            | .vmap oldValues =>
              match mod.newValues with
              | .other _ => .failed (.invariantErr "error converting new values map")
              | .vmap newValuesAgain =>
                if goIndex oldValues colCaveatName = goIndex newValuesAgain colCaveatName ∧
                    goIndex oldValues colCaveatContext = goIndex newValuesAgain colCaveatContext then
                  .ok none
                else
                  match contextualizedCaveatFromValues codecs newValuesAgain with
                  | .panicked s => .panicked s
                  | .failed e => .failed e
                  | .ok cav =>
                    .ok (some (.relChange .touch { relationTuple with caveat := cav }))
        else if tableName = tableNamespace then
          match newValues.lookup colNamespaceConfig with
          | none => .failed (.invariantErr "missing namespace config value")
          | some v =>
            match v with
            | .str base64SerializedConfig =>
              match codecs.base64Decode base64SerializedConfig with
              | none => .failed .unableToReadConfigErr
              | some serializedConfig =>
                match codecs.unmarshalNamespace serializedConfig with
                | none => .failed .unableToReadConfigErr
                | some nsDef => .ok (some (.changedDefinition (.ns nsDef)))
            | _ => .failed (.invariantErr "error converting namespace config value")
        else if tableName = tableCaveat then
          match newValues.lookup colCaveatDefinition with
          | none => .failed (.invariantErr "missing caveat definition value")
          | some v =>
            match v with
            | .str base64SerializedConfig =>
              match codecs.base64Decode base64SerializedConfig with
              | none => .failed .unableToReadConfigErr
              | some serializedConfig =>
                match codecs.unmarshalCaveat serializedConfig with
                | none => .failed .unableToReadConfigErr
                | some cavDef => .ok (some (.changedDefinition (.caveat cavDef)))
            | _ => .failed (.invariantErr "error converting caveat definition value")
        else .failed (.invariantErr "unknown table name in delete of change stream")
    else .failed (.invariantErr "unknown modtype in spanner change stream record")

/-! Content mask and stream selection. -/

/-- Watch content mask: the three independent bits of
`datastore.WatchContent` used by this code. -/
structure ContentMask where
  relationships : Bool
  schema : Bool
  checkpoints : Bool
deriving DecidableEq

/-- The `datastore.WatchRelationships` bit. -/
def WatchRelationships : ContentMask := ⟨true, false, false⟩
/-- The `datastore.WatchSchema` bit. -/
def WatchSchema : ContentMask := ⟨false, true, false⟩
/-- The `datastore.WatchCheckpoints` bit. -/
def WatchCheckpoints : ContentMask := ⟨false, false, true⟩

/-- Bitwise AND of two content masks (Go `&`). -/
def ContentMask.band (a b : ContentMask) : ContentMask :=
  ⟨a.relationships && b.relationships, a.schema && b.schema, a.checkpoints && b.checkpoints⟩

/-- Bitwise OR of two content masks (Go `|`). -/
def ContentMask.bor (a b : ContentMask) : ContentMask :=
  ⟨a.relationships || b.relationships, a.schema || b.schema, a.checkpoints || b.checkpoints⟩

/-- Embedding of the stream selection (watch.go lines 106-114): start from
the combined stream, switch to the relationship stream when the mask is a
subset of the relationships bit, then to the schema stream when the mask
is a subset of schema-or-checkpoints; the two tests are sequential
assignments exactly as in the source. -/
def changeStreamNameForContent (content : ContentMask) : String :=
  let n0 := CombinedChangeStreamName
  let n1 := if content.band WatchRelationships = content then RelationTupleChangeStreamName else n0
  if content.band (WatchSchema.bor WatchCheckpoints) = content then SchemaChangeStreamName else n1

/-- Spec-side stream selector, written from the specification's words for
the refinement comparison: exactly-relationships picks the relationship
stream, any subset of schema-plus-checkpoints (including the empty mask)
picks the schema stream, everything else the combined stream. -/
def specStreamSelector (content : ContentMask) : String :=
  if content = WatchRelationships then RelationTupleChangeStreamName
  else if content.relationships = false then SchemaChangeStreamName
  else CombinedChangeStreamName

/-! Revision aggregator.  `common.NewChanges` / `common.Changes` live in
`internal/datastore/common`, which is not part of the analysed source.
Modelled from the spec: a per-batch accumulator keyed by revision whose
add operations are filtered against the content mask and merged per
revision, and whose rendering is strictly ascending by revision under the
caller-supplied less-than comparator.  Revisions (`revision.Decimal`,
also outside the source) are modelled from the spec as the natural-number
commit timestamps they losslessly encode, with `DecimalKeyLessThanFunc`
the strict order on those numbers. -/

/-- Modelled from the spec: `revisionFromTimestamp`, the lossless codec
from a native commit timestamp to a revision (both modelled as `Nat`). -/
def revisionFromTimestamp (t : Nat) : Nat := t

/-- Modelled from the spec: `timestampFromRevision`, exact inverse of
`revisionFromTimestamp`. -/
def timestampFromRevision (r : Nat) : Nat := r

/-- Changes accumulated for one revision. -/
structure RevisionData where
  relationshipChanges : List (RelationTupleUpdateOp × RelationTuple)
  changedDefinitions : List SchemaDefinition
  deletedNamespaces : List String
  deletedCaveats : List String
deriving DecidableEq

/-- The empty per-revision accumulator. -/
def RevisionData.empty : RevisionData := ⟨[], [], [], []⟩

/-- Modelled from the spec: the state of `common.Changes` — one entry per
distinct revision seen so far, in insertion order, plus the content mask
the adds are filtered against. -/
structure TrackedChanges where
  content : ContentMask
  entries : List (Nat × RevisionData)
deriving DecidableEq

/-- Modelled from the spec: `common.NewChanges(keyFunc, content)`. -/
def newChanges (content : ContentMask) : TrackedChanges := ⟨content, []⟩

/-- Update (or create) the entry for a revision, merging into the single
existing entry when the revision was already seen. -/
def updateEntries (rev : Nat) (f : RevisionData → RevisionData) :
    List (Nat × RevisionData) → List (Nat × RevisionData)
  | [] => [(rev, f RevisionData.empty)]
  | (r, d) :: rest =>
    if r = rev then (r, f d) :: rest else (r, d) :: updateEntries rev f rest

/-- Merge a change into the accumulator at the given revision. -/
def TrackedChanges.update (t : TrackedChanges) (rev : Nat) (f : RevisionData → RevisionData) :
    TrackedChanges :=
  { t with entries := updateEntries rev f t.entries }

/-- Modelled from the spec: `AddRelationshipChange`, dropped when
relationships were not requested. -/
def TrackedChanges.addRelationshipChange (t : TrackedChanges) (rev : Nat)
    (tuple : RelationTuple) (op : RelationTupleUpdateOp) : TrackedChanges :=
  if t.content.relationships then
    t.update rev fun d => { d with relationshipChanges := d.relationshipChanges ++ [(op, tuple)] }
  else t

/-- Modelled from the spec: `AddDeletedNamespace`, dropped when schema was
not requested. -/
def TrackedChanges.addDeletedNamespace (t : TrackedChanges) (rev : Nat) (name : String) :
    TrackedChanges :=
  if t.content.schema then
    t.update rev fun d => { d with deletedNamespaces := d.deletedNamespaces ++ [name] }
  else t

/-- Modelled from the spec: `AddDeletedCaveat`, dropped when schema was
not requested. -/
def TrackedChanges.addDeletedCaveat (t : TrackedChanges) (rev : Nat) (name : String) :
    TrackedChanges :=
  if t.content.schema then
    t.update rev fun d => { d with deletedCaveats := d.deletedCaveats ++ [name] }
  else t

/-- Modelled from the spec: `AddChangedDefinition`, dropped when schema
was not requested. -/
def TrackedChanges.addChangedDefinition (t : TrackedChanges) (rev : Nat) (d : SchemaDefinition) :
    TrackedChanges :=
  if t.content.schema then
    t.update rev fun rd => { rd with changedDefinitions := rd.changedDefinitions ++ [d] }
  else t

/-- Dispatch a decoded change event into the accumulator. -/
def TrackedChanges.addEvent (t : TrackedChanges) (rev : Nat) : ChangeEvent → TrackedChanges
  | .relChange op tuple => t.addRelationshipChange rev tuple op
  | .deletedNamespace n => t.addDeletedNamespace rev n
  | .deletedCaveat n => t.addDeletedCaveat rev n
  | .changedDefinition d => t.addChangedDefinition rev d

/-- Modelled from the spec: `Changes.IsEmpty`. -/
def TrackedChanges.isEmpty (t : TrackedChanges) : Bool := t.entries.isEmpty

/-- One revision change set as delivered to the caller
(`datastore.RevisionChanges`, outside the source; modelled from the
spec). -/
structure RevisionChanges where
  revision : Nat
  relationshipChanges : List (RelationTupleUpdateOp × RelationTuple)
  changedDefinitions : List SchemaDefinition
  deletedNamespaces : List String
  deletedCaveats : List String
  isCheckpoint : Bool
deriving DecidableEq

/-- Insert one revision entry into a list sorted ascending by revision. -/
def insertByRevision (p : Nat × RevisionData) :
    List (Nat × RevisionData) → List (Nat × RevisionData)
  | [] => [p]
  | q :: rest => if p.1 < q.1 then p :: q :: rest else q :: insertByRevision p rest

/-- Sort revision entries ascending by revision (the spec's strictly
ascending render order under `DecimalKeyLessThanFunc`). -/
def sortEntries : List (Nat × RevisionData) → List (Nat × RevisionData)
  | [] => []
  | p :: rest => insertByRevision p (sortEntries rest)

/-- Modelled from the spec: `Changes.AsRevisionChanges(lessThanFunc)` —
the accumulated entries, one merged set per revision, ordered strictly
ascending by revision, with the checkpoint flag clear. -/
def TrackedChanges.asRevisionChanges (t : TrackedChanges) : List RevisionChanges :=
  (sortEntries t.entries).map fun p =>
    { revision := p.1
      relationshipChanges := p.2.relationshipChanges
      changedDefinitions := p.2.changedDefinitions
      deletedNamespaces := p.2.deletedNamespaces
      deletedCaveats := p.2.deletedCaveats
      isCheckpoint := false }

/-! Raw change records (`changestreams.ReadResult` and friends, the
shapes consumed from the external reader). -/

/-- Heartbeat record carrying a native commit timestamp. -/
structure HeartbeatRecord where
  timestamp : Nat
deriving DecidableEq

/-- Data change record: commit timestamp, modification type string
(INSERT / UPDATE / DELETE), table name, and the list of modifications. -/
structure DataChangeRecord where
  commitTimestamp : Nat
  modType : String
  tableName : String
  mods : List Mod
deriving DecidableEq

/-- One change record: data change records plus heartbeat records. -/
structure ChangeRecord where
  dataChangeRecords : List DataChangeRecord
  heartbeatRecords : List HeartbeatRecord
deriving DecidableEq

/-- One batch handed to the read callback. -/
structure ReadResult where
  changeRecords : List ChangeRecord
deriving DecidableEq

/-- Watch options: content mask and requested checkpoint interval (in
nanoseconds, like Go durations). -/
structure WatchOptions where
  content : ContentMask
  checkpointInterval : Nat
deriving DecidableEq

/-- The 100ms heartbeat-interval floor, in nanoseconds. -/
def minimumHeartbeatInterval : Nat := 100000000

/-- Embedding of the heartbeat clamp (watch.go lines 76-79): below-floor
intervals are raised to the floor, never rejected. -/
def clampHeartbeatInterval (d : Nat) : Nat :=
  if d < minimumHeartbeatInterval then minimumHeartbeatInterval else d

/-- Split a character list on `/`, keeping empty segments. -/
def splitSegs : List Char → List (List Char)
  | [] => [[]]
  | c :: rest =>
    if c = '/' then [] :: splitSegs rest
    else
      match splitSegs rest with
      | [] => [[c]]
      | s :: ss => (c :: s) :: ss

/-- Embedding of `parseDatabaseName` (watch.go lines 47-54).  The regex
`^projects/([^/]+)/instances/([^/]+)/databases/([^/]+)$` matches exactly
the strings whose slash-separated segments are the six below with the
three captured segments non-empty (a segment produced by the split never
contains a slash, matching `[^/]+`). -/
def parseDatabaseName (db : String) : Option (String × String × String) :=
  match (splitSegs db.data).map String.mk with
  | [kp, p, ki, i, kd, d] =>
    if kp = "projects" ∧ ki = "instances" ∧ kd = "databases" ∧ p ≠ "" ∧ i ≠ "" ∧ d ≠ "" then
      some (p, i, d)
    else none
  | _ => none

/-- The caller-supplied starting revision, a `datastore.Revision`
interface value: either the `revision.Decimal` this datastore produces or
some other implementation. -/
inductive DatastoreRevision where
  | decimal (d : Nat)
  | otherImpl (tag : String)
deriving DecidableEq

/-- Capacity of the updates channel created by `Watch` (watch.go line
57). -/
def watchBufferCapacity : Nat := 10

/-- Capacity of the error channel created by `Watch` (watch.go line
58). -/
def errBufferCapacity : Nat := 1

/-- External world of one watch session: decode capabilities, the
reader's open outcome, the batches the reader delivers, the error the
reader's `Read` returns after those batches when no callback error
aborted it (`none` models a nil return), an acceptance oracle telling
whether the bounded updates channel has room at the n-th non-blocking
send attempt, and whether `errors.Is(ctx.Err(), context.Canceled)` holds
when an error is reported. -/
structure WatchEnv where
  codecs : ExternalCodecs
  openErr : Option String
  batches : List ReadResult
  readReturnErr : Option String
  accepts : Nat → Bool
  ctxCanceled : Bool

/-- Producer-side delivery state: number of send attempts made so far and
the change sets successfully delivered, in order. -/
structure SendState where
  attempts : Nat
  sent : List RevisionChanges
deriving DecidableEq

/-- Embedding of the non-blocking `sendChange` (watch.go lines 90-98):
the select with a default branch succeeds exactly when the channel has
room, and never waits. -/
def sendChange (env : WatchEnv) (st : SendState) (c : RevisionChanges) : Bool × SendState :=
  if env.accepts st.attempts then (true, ⟨st.attempts + 1, st.sent ++ [c]⟩)
  else (false, ⟨st.attempts + 1, st.sent⟩)

/-- Result of running (part of) the read loop: normal completion, a
callback error aborting the read, or a propagating panic — each carrying
the delivery state reached. -/
inductive RunRes where
  | ok (st : SendState)
  | stopErr (e : WatchErr) (st : SendState)
  | stopPanic (site : PanicSite) (st : SendState)
deriving DecidableEq

/-- Deliver a list of change sets with non-blocking sends, aborting with
the canonical disconnect error at the first full-queue attempt (watch.go
lines 330-335 and 339-346). -/
def sendAll (env : WatchEnv) (st : SendState) : List RevisionChanges → RunRes
  | [] => .ok st
  | c :: rest =>
    match sendChange env st c with
    | (true, st') => sendAll env st' rest
    | (false, st') => .stopErr .watchDisconnectedErr st'

/-- Decode the modifications of one data change record, in order,
stopping at the first error or panic (watch.go lines 153-326). -/
def buildTrackedMods (codecs : ExternalCodecs) (rev : Nat) (modType tableName : String)
    (tracked : TrackedChanges) : List Mod → Outcome TrackedChanges
  | [] => .ok tracked
  | m :: rest =>
    match processMod codecs modType tableName m with
    | .panicked s => .panicked s
    | .failed e => .failed e
    | .ok none => buildTrackedMods codecs rev modType tableName tracked rest
    | .ok (some ev) => buildTrackedMods codecs rev modType tableName (tracked.addEvent rev ev) rest

/-- Decode the modifications of a list of data change records into the
accumulator, stopping at the first error or panic (watch.go lines
149-327). -/
def buildTracked (codecs : ExternalCodecs) (tracked : TrackedChanges) :
    List DataChangeRecord → Outcome TrackedChanges
  | [] => .ok tracked
  | dcr :: rest =>
    match buildTrackedMods codecs (revisionFromTimestamp dcr.commitTimestamp)
        dcr.modType dcr.tableName tracked dcr.mods with
    | .panicked s => .panicked s
    | .failed e => .failed e
    | .ok tracked' => buildTracked codecs tracked' rest

/-- The checkpoint change set built for one heartbeat record (watch.go
lines 340-343): only a revision and the checkpoint flag, no data. -/
def mkCheckpointChange (hbr : HeartbeatRecord) : RevisionChanges :=
  { revision := revisionFromTimestamp hbr.timestamp
    relationshipChanges := []
    changedDefinitions := []
    deletedNamespaces := []
    deletedCaveats := []
    isCheckpoint := true }

/-- Process one change record inside the read callback (watch.go lines
146-347): decode all its modifications into a fresh accumulator, deliver
the rendered revision change sets when non-empty, then deliver one
checkpoint per heartbeat record when checkpoints were requested. -/
def processRecord (env : WatchEnv) (opts : WatchOptions) (st : SendState)
    (record : ChangeRecord) : RunRes :=
  match buildTracked env.codecs (newChanges opts.content) record.dataChangeRecords with
  | .panicked s => .stopPanic s st
  | .failed e => .stopErr e st
  | .ok tracked =>
    let afterData : RunRes :=
      if tracked.isEmpty then .ok st
      else sendAll env st tracked.asRevisionChanges
    match afterData with
    | .ok st' =>
      if opts.content.band WatchCheckpoints = WatchCheckpoints then
        sendAll env st' (record.heartbeatRecords.map mkCheckpointChange)
      else .ok st'
    | other => other

/-- Process the change records of one batch, stopping at the first
abort. -/
def processRecords (env : WatchEnv) (opts : WatchOptions) (st : SendState) :
    List ChangeRecord → RunRes
  | [] => .ok st
  | r :: rest =>
    match processRecord env opts st r with
    | .ok st' => processRecords env opts st' rest
    | stop => stop

/-- Drive the read callback over the batches the external reader
delivers, stopping at the first abort. -/
def readLoop (env : WatchEnv) (opts : WatchOptions) (st : SendState) :
    List ReadResult → RunRes
  | [] => .ok st
  | b :: rest =>
    match processRecords env opts st b.changeRecords with
    | .ok st' => readLoop env opts st' rest
    | stop => stop

/-- Request parameters of the reader open call, recorded when
`changestreams.NewReaderWithConfig` is reached. -/
structure OpenRequest where
  streamName : String
  startTimestamp : Nat
  heartbeatInterval : Nat
deriving DecidableEq

/-- How the session ended. -/
inductive ExitKind where
  | parseFail
  | panicExit
  | openFail
  | callbackFail
  | readFail
  | clean
deriving DecidableEq

/-- Observable outcome of one watch session: change sets delivered on the
updates channel in order, errors delivered on the error channel in order,
how often each channel was closed, the reader open request (when one was
made) and whether the reader was released, the propagating panic site if
any, the total number of non-blocking send attempts, and the exit path
taken. -/
structure WatchResult where
  updatesSent : List RevisionChanges
  errsSent : List WatchErr
  updatesCloses : Nat
  errsCloses : Nat
  openRequest : Option OpenRequest
  readerClosed : Bool
  panicSite : Option PanicSite
  attempts : Nat
  exit : ExitKind
deriving DecidableEq

/-- Embedding of the `sendError` closure (watch.go lines 81-88): when the
cancellation signal is active at reporting time the canonical cancellation
error replaces the underlying error. -/
def sendErrorValue (env : WatchEnv) (e : WatchErr) : WatchErr :=
  if env.ctxCanceled then .watchCanceledErr else e

/-- Embedding of the producer task `watch` (watch.go lines 65-356).  The
deferred channel closes run exactly once on every exit path, including
panics; the deferred reader close runs on every path reached after the
open succeeds.  A clean reader return sends no error.  Field accesses on
the state returned by the read loop are spelled per exit path. -/
def watch (env : WatchEnv) (db : String) (afterRevisionRaw : DatastoreRevision)
    (opts : WatchOptions) : WatchResult :=
  let heartbeatInterval := clampHeartbeatInterval opts.checkpointInterval
  match parseDatabaseName db with
  | none =>
    { updatesSent := [], errsSent := [sendErrorValue env (.parseErr db)]
      updatesCloses := 1, errsCloses := 1, openRequest := none, readerClosed := false
      panicSite := none, attempts := 0, exit := .parseFail }
  | some _ =>
    let streamName := changeStreamNameForContent opts.content
    match afterRevisionRaw with
    | .otherImpl _ =>
      { updatesSent := [], errsSent := []
        updatesCloses := 1, errsCloses := 1, openRequest := none, readerClosed := false
        panicSite := some .revisionTypeAssert, attempts := 0, exit := .panicExit }
    | .decimal afterRevision =>
      let req : OpenRequest :=
        { streamName := streamName
          startTimestamp := timestampFromRevision afterRevision
          heartbeatInterval := heartbeatInterval }
      match env.openErr with
      | some msg =>
        { updatesSent := [], errsSent := [sendErrorValue env (.openErr msg)]
          updatesCloses := 1, errsCloses := 1, openRequest := some req, readerClosed := false
          panicSite := none, attempts := 0, exit := .openFail }
      | none =>
        match readLoop env opts ⟨0, []⟩ env.batches with
        | .stopPanic site st =>
          { updatesSent := st.sent, errsSent := []
            updatesCloses := 1, errsCloses := 1, openRequest := some req, readerClosed := true
            panicSite := some site, attempts := st.attempts, exit := .panicExit }
        | .stopErr e st =>
          { updatesSent := st.sent, errsSent := [sendErrorValue env e]
            updatesCloses := 1, errsCloses := 1, openRequest := some req, readerClosed := true
            panicSite := none, attempts := st.attempts, exit := .callbackFail }
        | .ok st =>
          match env.readReturnErr with
          | some msg =>
            { updatesSent := st.sent, errsSent := [sendErrorValue env (.readErr msg)]
              updatesCloses := 1, errsCloses := 1, openRequest := some req, readerClosed := true
              panicSite := none, attempts := st.attempts, exit := .readFail }
          | none =>
            { updatesSent := st.sent, errsSent := []
              updatesCloses := 1, errsCloses := 1, openRequest := some req, readerClosed := true
              panicSite := none, attempts := st.attempts, exit := .clean }

/-! Abstract aggregator operations, used to state the ordering and
merging property of the revision aggregator over every possible sequence
of adds. -/

/-- One aggregator add operation. -/
inductive AggOp where
  | rel (rev : Nat) (t : RelationTuple) (op : RelationTupleUpdateOp)
  | delNs (rev : Nat) (name : String)
  | delCav (rev : Nat) (name : String)
  | changed (rev : Nat) (d : SchemaDefinition)
deriving DecidableEq

/-- The revision an aggregator operation targets. -/
def AggOp.rev : AggOp → Nat
  | .rel r _ _ => r
  | .delNs r _ => r
  | .delCav r _ => r
  | .changed r _ => r

/-- Whether the content-mask filter keeps the operation. -/
def AggOp.survives (content : ContentMask) : AggOp → Bool
  | .rel _ _ _ => content.relationships
  | .delNs _ _ => content.schema
  | .delCav _ _ => content.schema
  | .changed _ _ => content.schema

/-- Apply one aggregator operation. -/
def applyAggOp (t : TrackedChanges) : AggOp → TrackedChanges
  | .rel rev tuple op => t.addRelationshipChange rev tuple op
  | .delNs rev n => t.addDeletedNamespace rev n
  | .delCav rev n => t.addDeletedCaveat rev n
  | .changed rev d => t.addChangedDefinition rev d

/-- Apply a sequence of aggregator operations to a fresh accumulator. -/
def applyAggOps (content : ContentMask) (ops : List AggOp) : TrackedChanges :=
  ops.foldl applyAggOp (newChanges content)

/-! Invariant predicates used to reason about the delivery loop. -/

/-- No send attempt with index in `[a, b)` found the queue full. -/
def NoFailedSends (env : WatchEnv) (a b : Nat) : Prop :=
  ∀ j, a ≤ j → j < b → env.accepts j = true

/-- Relation between the delivery state a loop fragment started from and
the run result it produced: either every attempt made in between found
room (and each success delivered one change set), or the fragment stopped
at its single failed attempt with the canonical disconnect error. -/
def SendProgress (env : WatchEnv) (st : SendState) : RunRes → Prop
  | .ok st' =>
    st.attempts ≤ st'.attempts ∧ NoFailedSends env st.attempts st'.attempts ∧
      st'.sent.length + st.attempts = st.sent.length + st'.attempts
  | .stopPanic _ st' =>
    st.attempts ≤ st'.attempts ∧ NoFailedSends env st.attempts st'.attempts ∧
      st'.sent.length + st.attempts = st.sent.length + st'.attempts
  | .stopErr e st' =>
    (st.attempts ≤ st'.attempts ∧ NoFailedSends env st.attempts st'.attempts ∧
      st'.sent.length + st.attempts = st.sent.length + st'.attempts) ∨
    (e = .watchDisconnectedErr ∧ st.attempts < st'.attempts ∧
      env.accepts (st'.attempts - 1) = false ∧
      NoFailedSends env st.attempts (st'.attempts - 1) ∧
      st'.sent.length + st.attempts + 1 = st.sent.length + st'.attempts)

/-! Concrete sample inputs used by witnesses and counterexamples. -/

/-- Sample external codecs: JSON strings parse to the empty map, base64
and protobuf decoding always succeed. -/
def sampleCodecs : ExternalCodecs :=
  { jsonParse := fun _ => some []
    base64Decode := fun _ => some []
    unmarshalNamespace := fun _ => some ⟨"somenamespace"⟩
    unmarshalCaveat := fun _ => some ⟨"somecaveat"⟩ }

/-- Sample well-typed relationship primary-key column map. -/
def samplePK : ColMap :=
  [(colNamespace, .str "document"), (colObjectID, .str "doc1"), (colRelation, .str "viewer"),
   (colUsersetNamespace, .str "user"), (colUsersetObjectID, .str "alice"),
   (colUsersetRelation, .str "ellipsis")]

/-- The relation tuple encoded by `samplePK`. -/
def sampleTuple : RelationTuple :=
  { resourceAndRelation := { ns := "document", objectId := "doc1", relation := "viewer" }
    subject := { ns := "user", objectId := "alice", relation := "ellipsis" }
    caveat := none }

/-- Sample watch options requesting all content. -/
def sampleOpts : WatchOptions := ⟨⟨true, true, true⟩, 0⟩

/-- Sample well-formed database resource name. -/
def sampleDB : String := "projects/p/instances/i/databases/d"

/-- Sample environment: reader opens, delivers no batches, returns nil;
the queue always has room; no cancellation. -/
def sampleCleanEnv : WatchEnv :=
  { codecs := sampleCodecs, openErr := none, batches := [], readReturnErr := none
    accepts := fun _ => true, ctxCanceled := false }

/-- Sample environment with the cancellation signal active. -/
def sampleCanceledEnv : WatchEnv := { sampleCleanEnv with ctxCanceled := true }

/-- A change record with one relationship update (one rendered change
set) and one heartbeat record. -/
def sampleRecord : ChangeRecord :=
  { dataChangeRecords :=
      [⟨7, "UPDATE", tableRelationship,
        [{ keys := .vmap samplePK, newValues := .vmap [(colCaveatName, .str "c1")],
           oldValues := .vmap [] }]⟩]
    heartbeatRecords := [⟨9⟩] }

/-- Sample environment delivering `sampleRecord` where only the first
send attempt finds room in the queue. -/
def sampleBackpressureEnv : WatchEnv :=
  { sampleCleanEnv with batches := [⟨[sampleRecord]⟩], accepts := fun n => n == 0 }

/-- Sample environment delivering `sampleRecord` with a consumer that
always keeps up. -/
def sampleFlowingEnv : WatchEnv := { sampleCleanEnv with batches := [⟨[sampleRecord]⟩] }

/-- The data change sets one record's accumulator delivers: nothing when
the accumulator is empty, its rendered revision change sets otherwise. -/
def renderedData (tracked : TrackedChanges) : List RevisionChanges :=
  if tracked.isEmpty then [] else tracked.asRevisionChanges

/-- Sample watch options with the checkpoint bit clear. -/
def sampleOptsNoCp : WatchOptions := ⟨⟨true, true, false⟩, 0⟩

/-- The accumulator state produced by decoding `sampleRecord`. -/
def sampleTracked : TrackedChanges :=
  (newChanges sampleOpts.content).addRelationshipChange 7
    { sampleTuple with caveat := some ⟨"c1", none⟩ } .touch

/-- The data change set rendered from `sampleRecord`. -/
def sampleDataChangeSet : RevisionChanges :=
  { revision := 7
    relationshipChanges := [(.touch, { sampleTuple with caveat := some ⟨"c1", none⟩ })]
    changedDefinitions := []
    deletedNamespaces := []
    deletedCaveats := []
    isCheckpoint := false }

/-- Sample aggregator operations at interleaved revisions 5, 3, 5. -/
def sampleAggOps : List AggOp :=
  [.rel 5 sampleTuple .touch, .delNs 3 "somenamespace", .rel 5 sampleTuple .delete]

/-! ### Claim C6 — stream selection -/

/-- C6: stream selection is a pure function of the content mask — the
sequential selection code computes exactly the spec's selector: the
relationships-only stream for exactly the relationships mask, the
schema-only stream for every subset of schema-plus-checkpoints (the empty
mask included), and the combined stream for every other mask. -/
theorem c6_stream_selection_matches_spec :
    ∀ content : ContentMask, changeStreamNameForContent content = specStreamSelector content := by
  intro c
  rcases c with ⟨r, s, k⟩
  cases r <;> cases s <;> cases k <;> rfl

/-! ### Claim C9 — error delivery and channel closure -/

/-- C9 counterexample: a session whose reader returns cleanly (no batches,
nil read result) closes both channels but delivers no error at all,
refuting the claim that exactly one error is delivered on every session
regardless of exit path. -/
theorem c9_counterexample_clean_return_no_error :
    (watch sampleCleanEnv sampleDB (.decimal 5) sampleOpts).errsSent = [] ∧
      (watch sampleCleanEnv sampleDB (.decimal 5) sampleOpts).updatesCloses = 1 ∧
      (watch sampleCleanEnv sampleDB (.decimal 5) sampleOpts).errsCloses = 1 ∧
      (watch sampleCleanEnv sampleDB (.decimal 5) sampleOpts).exit = .clean := by
  refine ⟨by decide, by decide, by decide, by decide⟩

/-- C9 amended: on every session each output channel is closed exactly
once regardless of exit path, at most one error is ever delivered on the
error channel, and the error count is zero exactly on the clean-reader
return and panic exit paths (one error on every other path). -/
theorem c9_amended_at_most_one_error_channels_closed_once
    (env : WatchEnv) (db : String) (rev : DatastoreRevision) (opts : WatchOptions) :
    (watch env db rev opts).updatesCloses = 1 ∧ (watch env db rev opts).errsCloses = 1 ∧
      (watch env db rev opts).errsSent.length ≤ 1 ∧
      ((watch env db rev opts).errsSent = [] ↔
        (watch env db rev opts).exit = .clean ∨ (watch env db rev opts).exit = .panicExit) := by
  unfold watch
  repeat' split
  all_goals simp

/-! ### Claim C10 — starting-revision type precondition -/

/-- C10 counterexample: a call whose starting revision is not a Decimal
revision but whose database name fails to parse delivers the parse error
on the error channel and never reaches the type assertion — so it is not
true that every non-Decimal call fails with the type-assertion panic
rather than delivering an error. -/
theorem c10_counterexample_parse_error_preempts_panic :
    (watch sampleCleanEnv "not-a-database-name" (.otherImpl "postgres") sampleOpts).panicSite
        = none ∧
      (watch sampleCleanEnv "not-a-database-name" (.otherImpl "postgres") sampleOpts).errsSent
        = [.parseErr "not-a-database-name"] := by
  refine ⟨by decide, by decide⟩

/-! ### Claim C1 — cancellation normalization -/

/-- C1: for every watch session failure, if the cancellation signal is
active at the time the failure is reported — whether it originated from
the external reader (the read-return and callback error paths) or was
detected directly (parse and open failures) — the error delivered on the
error channel is the single canonical cancellation error, never the raw
underlying error. -/
theorem c1_cancellation_normalized (env : WatchEnv) (db : String)
    (rev : DatastoreRevision) (opts : WatchOptions) (e : WatchErr)
    (hc : env.ctxCanceled = true)
    (he : e ∈ (watch env db rev opts).errsSent) : e = .watchCanceledErr := by
  unfold watch at he
  repeat' split at he
  all_goals simp_all [sendErrorValue]

/-- Witness for C1 at a concrete input: a session whose database name
fails to parse while the cancellation signal is active delivers the
canonical cancellation error, not the parse error. -/
theorem c1_cancellation_normalized_witness :
    sampleCanceledEnv.ctxCanceled = true ∧
      WatchErr.watchCanceledErr ∈
        (watch sampleCanceledEnv "not-a-database-name" (.decimal 0) sampleOpts).errsSent ∧
      WatchErr.watchCanceledErr = .watchCanceledErr :=
  ⟨by decide, by decide,
    c1_cancellation_normalized sampleCanceledEnv "not-a-database-name" (.decimal 0) sampleOpts
      WatchErr.watchCanceledErr (by decide) (by decide)⟩

/-! Panic-site lemmas: the decode path can only panic at a primary-key
column or caveat column assertion, never at the starting-revision type
assertion. -/

/-- The unchecked string assertion on a primary-key column only panics at
its own column site. -/
theorem assertPKString_panic_site {col : String} {v : ColValue} {s : PanicSite}
    (h : assertPKString col v = .panicked s) : s = .pkColumnAssert col := by
  unfold assertPKString at h
  split at h
  · cases h
  · injection h with h2
    exact h2.symm

/-- Tuple construction from the primary key only panics at a primary-key
column site. -/
theorem relationTupleFromPK_panic_site {pk : ColMap} {s : PanicSite}
    (h : relationTupleFromPK pk = .panicked s) : ∃ c, s = .pkColumnAssert c := by
  unfold relationTupleFromPK at h
  repeat' split at h
  all_goals cases h
  all_goals rename_i heq
  all_goals exact ⟨_, assertPKString_panic_site heq⟩

/-- Caveat reconstruction only panics at a caveat column site. -/
theorem contextualizedCaveatFromValues_panic_site {codecs : ExternalCodecs} {values : ColMap}
    {s : PanicSite} (h : contextualizedCaveatFromValues codecs values = .panicked s) :
    s = .caveatNameAssert ∨ s = .caveatContextAssert := by
  unfold contextualizedCaveatFromValues at h
  repeat' split at h
  all_goals cases h
  all_goals simp

/-- The per-modification decode step never panics at the
starting-revision type assertion. -/
theorem processMod_panic_site {codecs : ExternalCodecs} {modType tableName : String} {mod : Mod}
    {s : PanicSite} (h : processMod codecs modType tableName mod = .panicked s) :
    s ≠ .revisionTypeAssert := by
  unfold processMod at h
  repeat' split at h
  all_goals cases h
  all_goals rename_i heq
  all_goals first
    | (rcases relationTupleFromPK_panic_site heq with ⟨c, hc⟩
       subst hc; intro hx; cases hx)
    | (rcases contextualizedCaveatFromValues_panic_site heq with hc | hc <;>
         (subst hc; intro hx; cases hx))

/-- The non-blocking delivery loop never panics. -/
theorem sendAll_no_panic {env : WatchEnv} {cs : List RevisionChanges} {st : SendState}
    {site : PanicSite} {st' : SendState} (h : sendAll env st cs = .stopPanic site st') :
    False := by
  induction cs generalizing st with
  | nil => cases h
  | cons c rest ih =>
    cases ha : env.accepts st.attempts <;> simp only [sendAll, sendChange, ha] at h
    · cases h
    · exact ih h

/-- Decoding one record's modifications only panics where the decode step
panics. -/
theorem buildTrackedMods_panic_site {codecs : ExternalCodecs} {rev : Nat}
    {modType tableName : String} {tracked : TrackedChanges} {mods : List Mod} {site : PanicSite}
    (h : buildTrackedMods codecs rev modType tableName tracked mods = .panicked site) :
    site ≠ .revisionTypeAssert := by
  induction mods generalizing tracked with
  | nil => cases h
  | cons m rest ih =>
    cases hm : processMod codecs modType tableName m with
    | panicked s => simp only [buildTrackedMods, hm] at h; cases h; exact processMod_panic_site hm
    | failed e => simp only [buildTrackedMods, hm] at h; cases h
    | ok oe =>
      cases oe <;> simp only [buildTrackedMods, hm] at h <;> exact ih h

/-- Decoding a batch's data change records only panics where the decode
step panics. -/
theorem buildTracked_panic_site {codecs : ExternalCodecs} {tracked : TrackedChanges}
    {dcrs : List DataChangeRecord} {site : PanicSite}
    (h : buildTracked codecs tracked dcrs = .panicked site) : site ≠ .revisionTypeAssert := by
  induction dcrs generalizing tracked with
  | nil => cases h
  | cons dcr rest ih =>
    cases hm : buildTrackedMods codecs (revisionFromTimestamp dcr.commitTimestamp)
        dcr.modType dcr.tableName tracked dcr.mods with
    | panicked s =>
      simp only [buildTracked, hm] at h; cases h; exact buildTrackedMods_panic_site hm
    | failed e => simp only [buildTracked, hm] at h; cases h
    | ok tracked' => simp only [buildTracked, hm] at h; exact ih h

/-- Processing one change record only panics where the decode step
panics. -/
theorem processRecord_panic_site {env : WatchEnv} {opts : WatchOptions} {st : SendState}
    {record : ChangeRecord} {site : PanicSite} {st' : SendState}
    (h : processRecord env opts st record = .stopPanic site st') :
    site ≠ .revisionTypeAssert := by
  unfold processRecord at h
  cases hb : buildTracked env.codecs (newChanges opts.content) record.dataChangeRecords with
  | panicked s => simp only [hb] at h; cases h; exact buildTracked_panic_site hb
  | failed e => simp only [hb] at h; cases h
  | ok tracked =>
    simp only [hb] at h
    exfalso
    cases hti : tracked.isEmpty <;> simp only [hti, Bool.false_eq_true, if_true, if_false] at h
    · cases hsa : sendAll env st tracked.asRevisionChanges <;> simp only [hsa] at h
      · split at h
        · exact sendAll_no_panic h
        · cases h
      · cases h
      · exact sendAll_no_panic hsa
    · split at h
      · exact sendAll_no_panic h
      · cases h

/-- Processing a batch only panics where the decode step panics. -/
theorem processRecords_panic_site {env : WatchEnv} {opts : WatchOptions} {st : SendState}
    {records : List ChangeRecord} {site : PanicSite} {st' : SendState}
    (h : processRecords env opts st records = .stopPanic site st') :
    site ≠ .revisionTypeAssert := by
  induction records generalizing st with
  | nil => cases h
  | cons r rest ih =>
    cases hr : processRecord env opts st r <;> simp only [processRecords, hr] at h
    · exact ih h
    · cases h
    · cases h; exact processRecord_panic_site hr

/-- The read loop only panics where the decode step panics. -/
theorem readLoop_panic_site {env : WatchEnv} {opts : WatchOptions} {st : SendState}
    {batches : List ReadResult} {site : PanicSite} {st' : SendState}
    (h : readLoop env opts st batches = .stopPanic site st') :
    site ≠ .revisionTypeAssert := by
  induction batches generalizing st with
  | nil => cases h
  | cons b rest ih =>
    cases hr : processRecords env opts st b.changeRecords <;> simp only [readLoop, hr] at h
    · exact ih h
    · cases h
    · cases h; exact processRecords_panic_site hr

/-- C10 amended: once the database name parses, a call whose starting
revision is not the Decimal revision type fails with the unchecked
type-assertion panic before any stream is opened, delivering nothing on
the error channel; when the database name fails to parse the parse error
is delivered first and the assertion is never reached; and under the
Decimal precondition the starting-revision type-assertion panic is
unreachable on every path. -/
theorem c10_amended_decimal_precondition :
    (∀ (env : WatchEnv) (db : String) (opts : WatchOptions) (tag : String),
      (parseDatabaseName db).isSome = true →
        watch env db (.otherImpl tag) opts =
          { updatesSent := [], errsSent := [], updatesCloses := 1, errsCloses := 1
            openRequest := none, readerClosed := false
            panicSite := some .revisionTypeAssert, attempts := 0, exit := .panicExit }) ∧
    (∀ (env : WatchEnv) (db : String) (opts : WatchOptions) (d : Nat),
      (watch env db (.decimal d) opts).panicSite ≠ some .revisionTypeAssert) := by
  constructor
  · intro env db opts tag hp
    unfold watch
    cases hdb : parseDatabaseName db with
    | none => rw [hdb] at hp; cases hp
    | some v => rfl
  · intro env db opts d
    unfold watch
    cases hdb : parseDatabaseName db with
    | none => simp
    | some v =>
      cases env.openErr with
      | some msg => simp
      | none =>
        cases hr : readLoop env opts ⟨0, []⟩ env.batches with
        | ok st => cases env.readReturnErr <;> simp
        | stopErr e st => simp
        | stopPanic site st =>
          intro hx
          exact readLoop_panic_site hr (Option.some.inj hx)

/-- Witness for C10 amended at concrete inputs: with a well-formed
database name and a non-Decimal revision the session panics at the type
assertion without opening a stream or delivering an error, and a Decimal
call never panics there. -/
theorem c10_amended_decimal_precondition_witness :
    ((parseDatabaseName sampleDB).isSome = true ∧
      watch sampleCleanEnv sampleDB (.otherImpl "postgres") sampleOpts =
        { updatesSent := [], errsSent := [], updatesCloses := 1, errsCloses := 1
          openRequest := none, readerClosed := false
          panicSite := some .revisionTypeAssert, attempts := 0, exit := .panicExit }) ∧
    (watch sampleCleanEnv sampleDB (.decimal 5) sampleOpts).panicSite
        ≠ some .revisionTypeAssert :=
  ⟨⟨by decide,
    c10_amended_decimal_precondition.1 sampleCleanEnv sampleDB sampleOpts "postgres" (by decide)⟩,
   c10_amended_decimal_precondition.2 sampleCleanEnv sampleDB sampleOpts 5⟩

/-! Helper lemmas about the relationship INSERT and UPDATE decode
branches. -/

/-- An UPDATE on the relationship table whose caveat name and raw caveat
context values agree between the old and new value maps is suppressed. -/
theorem processMod_update_rel_suppressed {codecs : ExternalCodecs} {mod : Mod} {pk oldV newV : ColMap}
    {rt : RelationTuple}
    (hk : mod.keys = .vmap pk) (ho : mod.oldValues = .vmap oldV) (hn : mod.newValues = .vmap newV)
    (hpk : relationTupleFromPK pk = .ok rt)
    (hsame : goIndex oldV colCaveatName = goIndex newV colCaveatName ∧
      goIndex oldV colCaveatContext = goIndex newV colCaveatContext) :
    processMod codecs "UPDATE" tableRelationship mod = .ok none := by
  simp [processMod, hk, hn, ho, hpk, hsame]

/-- An UPDATE on the relationship table whose caveat columns differ
between the old and new value maps emits the relationship touch built
from the primary key with the caveat reconstructed from the new
values. -/
theorem processMod_update_rel_emits {codecs : ExternalCodecs} {mod : Mod} {pk oldV newV : ColMap}
    {rt : RelationTuple} {cav : Option ContextualizedCaveat}
    (hk : mod.keys = .vmap pk) (ho : mod.oldValues = .vmap oldV) (hn : mod.newValues = .vmap newV)
    (hpk : relationTupleFromPK pk = .ok rt)
    (hdiff : ¬(goIndex oldV colCaveatName = goIndex newV colCaveatName ∧
      goIndex oldV colCaveatContext = goIndex newV colCaveatContext))
    (hcav : contextualizedCaveatFromValues codecs newV = .ok cav) :
    processMod codecs "UPDATE" tableRelationship mod
      = .ok (some (.relChange .touch { rt with caveat := cav })) := by
  simp [processMod, hk, hn, ho, hpk, hdiff, hcav]

/-- INSERT falls through to the UPDATE branch: the decode step treats the
two modification kinds identically on every table. -/
theorem processMod_insert_eq_update (codecs : ExternalCodecs) (tableName : String) (mod : Mod) :
    processMod codecs "INSERT" tableName mod = processMod codecs "UPDATE" tableName mod := by
  rcases mod with ⟨keys, newV, oldV⟩
  cases keys <;> simp [processMod]

/-! ### Claim C3 — touch suppression and UPDATE emission -/

/-- C3: a relationship-table UPDATE whose caveat-name column and raw
caveat-context value are identical between the old and new value maps is
suppressed (no change event); every other relationship UPDATE (with
well-typed primary-key and caveat columns, which the code reads with
unchecked assertions) emits a relationship-upsert built from the
primary-key columns with the caveat reconstructed from the new value
columns. -/
theorem c3_touch_suppression (codecs : ExternalCodecs) (mod : Mod) (pk oldV newV : ColMap)
    (rt : RelationTuple)
    (hk : mod.keys = .vmap pk) (ho : mod.oldValues = .vmap oldV) (hn : mod.newValues = .vmap newV)
    (hpk : relationTupleFromPK pk = .ok rt) :
    ((goIndex oldV colCaveatName = goIndex newV colCaveatName ∧
        goIndex oldV colCaveatContext = goIndex newV colCaveatContext) →
      processMod codecs "UPDATE" tableRelationship mod = .ok none) ∧
    (∀ cav : Option ContextualizedCaveat,
      ¬(goIndex oldV colCaveatName = goIndex newV colCaveatName ∧
        goIndex oldV colCaveatContext = goIndex newV colCaveatContext) →
      contextualizedCaveatFromValues codecs newV = .ok cav →
      processMod codecs "UPDATE" tableRelationship mod
        = .ok (some (.relChange .touch { rt with caveat := cav }))) :=
  ⟨fun hsame => processMod_update_rel_suppressed hk ho hn hpk hsame,
   fun _ hdiff hcav => processMod_update_rel_emits hk ho hn hpk hdiff hcav⟩

/-- Witness for C3 at concrete inputs: an UPDATE with an unchanged (absent
on both sides) caveat is suppressed; an UPDATE whose new caveat name
differs emits the touch upsert. -/
theorem c3_touch_suppression_witness :
    (processMod sampleCodecs "UPDATE" tableRelationship
        { keys := .vmap samplePK, newValues := .vmap [], oldValues := .vmap [] } = .ok none) ∧
    (processMod sampleCodecs "UPDATE" tableRelationship
        { keys := .vmap samplePK, newValues := .vmap [(colCaveatName, .str "c1")],
          oldValues := .vmap [] }
      = .ok (some (.relChange .touch { sampleTuple with caveat := some ⟨"c1", none⟩ }))) :=
  ⟨(c3_touch_suppression sampleCodecs
      { keys := .vmap samplePK, newValues := .vmap [], oldValues := .vmap [] }
      samplePK [] [] sampleTuple rfl rfl rfl (by decide)).1 (by decide),
   (c3_touch_suppression sampleCodecs
      { keys := .vmap samplePK, newValues := .vmap [(colCaveatName, .str "c1")],
        oldValues := .vmap [] }
      samplePK [] [(colCaveatName, .str "c1")] sampleTuple rfl rfl rfl (by decide)).2
     (some ⟨"c1", none⟩) (by decide) (by decide)⟩

/-! ### Claim C4 — INSERT handling -/

/-- C4 counterexample: an INSERT modification on the relationship table
with well-typed primary-key columns whose caveat columns agree between
the old and new value maps (here: both maps empty, as for an INSERT of a
caveat-less relationship, whose old values are the empty map) is
suppressed — no change event is emitted — refuting the claim that INSERTs
are never suppressed. -/
theorem c4_counterexample_insert_suppressed :
    processMod sampleCodecs "INSERT" tableRelationship
        { keys := .vmap samplePK, newValues := .vmap [], oldValues := .vmap [] }
      = .ok none := by
  decide

/-- C4 amended: INSERT falls through to the UPDATE branch, so an INSERT
modification on the relationship table is processed exactly like an
UPDATE: it is suppressed when the caveat-name and raw caveat-context
values are identical between the old and new value maps, and otherwise
emits a relationship-upsert (TOUCH) built from the primary-key columns
with the caveat reconstructed from the new value columns. -/
theorem c4_amended_insert_same_as_update :
    (∀ (codecs : ExternalCodecs) (tableName : String) (mod : Mod),
      processMod codecs "INSERT" tableName mod = processMod codecs "UPDATE" tableName mod) ∧
    (∀ (codecs : ExternalCodecs) (mod : Mod) (pk oldV newV : ColMap) (rt : RelationTuple)
        (cav : Option ContextualizedCaveat),
      mod.keys = .vmap pk → mod.oldValues = .vmap oldV → mod.newValues = .vmap newV →
      relationTupleFromPK pk = .ok rt →
      ¬(goIndex oldV colCaveatName = goIndex newV colCaveatName ∧
        goIndex oldV colCaveatContext = goIndex newV colCaveatContext) →
      contextualizedCaveatFromValues codecs newV = .ok cav →
      processMod codecs "INSERT" tableRelationship mod
        = .ok (some (.relChange .touch { rt with caveat := cav }))) :=
  ⟨processMod_insert_eq_update,
   fun codecs mod pk oldV newV rt cav hk ho hn hpk hdiff hcav =>
     (processMod_insert_eq_update codecs tableRelationship mod).trans
       (processMod_update_rel_emits hk ho hn hpk hdiff hcav)⟩

/-- Witness for C4 amended at concrete inputs: an INSERT with a fresh
caveat name emits the touch upsert, via the INSERT-equals-UPDATE
fallthrough. -/
theorem c4_amended_insert_same_as_update_witness :
    (processMod sampleCodecs "INSERT" tableRelationship
        { keys := .vmap samplePK, newValues := .vmap [], oldValues := .vmap [] }
      = processMod sampleCodecs "UPDATE" tableRelationship
        { keys := .vmap samplePK, newValues := .vmap [], oldValues := .vmap [] }) ∧
    (processMod sampleCodecs "INSERT" tableRelationship
        { keys := .vmap samplePK, newValues := .vmap [(colCaveatName, .str "c1")],
          oldValues := .vmap [] }
      = .ok (some (.relChange .touch { sampleTuple with caveat := some ⟨"c1", none⟩ }))) :=
  ⟨c4_amended_insert_same_as_update.1 sampleCodecs tableRelationship
      { keys := .vmap samplePK, newValues := .vmap [], oldValues := .vmap [] },
   c4_amended_insert_same_as_update.2 sampleCodecs
      { keys := .vmap samplePK, newValues := .vmap [(colCaveatName, .str "c1")],
        oldValues := .vmap [] }
      samplePK [] [(colCaveatName, .str "c1")] sampleTuple (some ⟨"c1", none⟩)
      rfl rfl rfl (by decide) (by decide) (by decide)⟩

/-! ### Claim C5 — malformed column typing -/

/-- C5 counterexample: a relationship-table DELETE whose primary-key
column map is missing the namespace column panics at the unchecked type
assertion instead of producing the fatal internal-invariant error the
claim requires for every missing or wrongly-typed column value. -/
theorem c5_counterexample_missing_pk_panics :
    processMod sampleCodecs "DELETE" tableRelationship
        { keys := .vmap [], newValues := .vmap [], oldValues := .vmap [] }
      = .panicked (.pkColumnAssert colNamespace) := by
  decide

/-- C5 amended: the map-level conversions (keys, old values, new values)
and the schema-table column accesses report fatal internal-invariant
errors on missing or wrongly-typed values, but the relationship
primary-key columns and the caveat-name column are read with unchecked
type assertions, so a missing or wrongly-typed value there is a runtime
type failure (panic), not an invariant error. -/
theorem c5_amended_mixed_invariant_errors_and_panics :
    (∀ (codecs : ExternalCodecs) (modType tableName : String) (mod : Mod) (v : ColValue),
      mod.keys = .other v →
      processMod codecs modType tableName mod = .failed (.invariantErr "error converting keys map")) ∧
    (∀ (codecs : ExternalCodecs) (tableName : String) (mod : Mod) (pk : ColMap) (v : ColValue),
      mod.keys = .vmap pk → mod.newValues = .other v →
      processMod codecs "UPDATE" tableName mod
        = .failed (.invariantErr "error new values keys map")) ∧
    (∀ pk : ColMap, (∀ s, goIndex pk colNamespace ≠ .str s) →
      relationTupleFromPK pk = .panicked (.pkColumnAssert colNamespace)) ∧
    (∀ (codecs : ExternalCodecs) (mod : Mod) (pk : ColMap) (site : PanicSite),
      mod.keys = .vmap pk → relationTupleFromPK pk = .panicked site →
      processMod codecs "DELETE" tableRelationship mod = .panicked site) ∧
    (∀ (codecs : ExternalCodecs) (values : ColMap), (∀ s, goIndex values colCaveatName ≠ .str s) →
      contextualizedCaveatFromValues codecs values = .panicked .caveatNameAssert) ∧
    (∀ (codecs : ExternalCodecs) (mod : Mod) (pk newV : ColMap),
      mod.keys = .vmap pk → mod.newValues = .vmap newV →
      newV.lookup colNamespaceConfig = none →
      processMod codecs "UPDATE" tableNamespace mod
        = .failed (.invariantErr "missing namespace config value")) := by
  refine ⟨?_, ?_, ?_, ?_, ?_, ?_⟩
  · intro codecs modType tableName mod v hk
    simp [processMod, hk]
  · intro codecs tableName mod pk v hk hn
    simp [processMod, hk, hn]
  · intro pk hns
    unfold relationTupleFromPK
    cases hv : goIndex pk colNamespace with
    | str s => exact absurd hv (hns s)
    | nullv => simp [assertPKString]
    | intv n => simp [assertPKString]
    | boolv b => simp [assertPKString]
  · intro codecs mod pk site hk hpk
    simp [processMod, hk, hpk]
  · intro codecs values hns
    unfold contextualizedCaveatFromValues
    cases hv : goIndex values colCaveatName with
    | str s => exact absurd hv (hns s)
    | nullv => rfl
    | intv n => rfl
    | boolv b => rfl
  · intro codecs mod pk newV hk hn hlk
    simp [processMod, hk, hn, hlk, tableNamespace, tableRelationship]

/-- Witness for C5 amended at concrete inputs: a non-map keys value
yields the invariant error; an empty primary-key map panics at the
namespace column; a missing schema config column yields its invariant
error. -/
theorem c5_amended_mixed_invariant_errors_and_panics_witness :
    (processMod sampleCodecs "DELETE" tableRelationship
        { keys := .other .nullv, newValues := .vmap [], oldValues := .vmap [] }
      = .failed (.invariantErr "error converting keys map")) ∧
    (relationTupleFromPK [] = .panicked (.pkColumnAssert colNamespace)) ∧
    (processMod sampleCodecs "UPDATE" tableNamespace
        { keys := .vmap [], newValues := .vmap [], oldValues := .vmap [] }
      = .failed (.invariantErr "missing namespace config value")) :=
  ⟨c5_amended_mixed_invariant_errors_and_panics.1 sampleCodecs "DELETE" tableRelationship
      { keys := .other .nullv, newValues := .vmap [], oldValues := .vmap [] } .nullv rfl,
   c5_amended_mixed_invariant_errors_and_panics.2.2.1 [] (by intro s h; cases h),
   c5_amended_mixed_invariant_errors_and_panics.2.2.2.2.2 sampleCodecs
      { keys := .vmap [], newValues := .vmap [], oldValues := .vmap [] } [] [] rfl rfl rfl⟩

/-! Delivery-progress lemmas for the backpressure claim. -/

/-- `SendProgress` holds reflexively at an unchanged state. -/
theorem sendProgress_same (env : WatchEnv) (st : SendState) :
    st.attempts ≤ st.attempts ∧ NoFailedSends env st.attempts st.attempts ∧
      st.sent.length + st.attempts = st.sent.length + st.attempts :=
  ⟨le_refl _, fun j h1 h2 => absurd (lt_of_le_of_lt h1 h2) (lt_irrefl _), rfl⟩

/-- Composing an all-accepted prefix with the progress of the remainder
of the run. -/
theorem sendProgress_compose {env : WatchEnv} {st st' : SendState} {r : RunRes}
    (h1 : st.attempts ≤ st'.attempts ∧ NoFailedSends env st.attempts st'.attempts ∧
      st'.sent.length + st.attempts = st.sent.length + st'.attempts)
    (h2 : SendProgress env st' r) : SendProgress env st r := by
  obtain ⟨hle1, hok1, hlen1⟩ := h1
  have combine : ∀ b, st'.attempts ≤ b → NoFailedSends env st'.attempts b →
      NoFailedSends env st.attempts b := by
    intro b hb hnf j hj1 hj2
    by_cases hlt : j < st'.attempts
    · exact hok1 j hj1 hlt
    · exact hnf j (le_of_not_lt hlt) hj2
  cases r with
  | ok s2 =>
    obtain ⟨hle2, hok2, hlen2⟩ := h2
    exact ⟨le_trans hle1 hle2, combine s2.attempts hle2 hok2, by omega⟩
  | stopPanic site s2 =>
    obtain ⟨hle2, hok2, hlen2⟩ := h2
    exact ⟨le_trans hle1 hle2, combine s2.attempts hle2 hok2, by omega⟩
  | stopErr e s2 =>
    rcases h2 with ⟨hle2, hok2, hlen2⟩ | ⟨he, hlt2, hfail, hok2, hlen2⟩
    · exact Or.inl ⟨le_trans hle1 hle2, combine s2.attempts hle2 hok2, by omega⟩
    · refine Or.inr ⟨he, lt_of_le_of_lt hle1 hlt2, hfail, ?_, by omega⟩
      intro j hj1 hj2
      by_cases hlt : j < st'.attempts
      · exact hok1 j hj1 hlt
      · exact hok2 j (le_of_not_lt hlt) hj2

/-- The delivery loop satisfies the progress invariant: every attempt it
makes before the last one found room, and it stops with the canonical
disconnect error at the first full-queue attempt. -/
theorem sendAll_progress (env : WatchEnv) (st : SendState) (cs : List RevisionChanges) :
    SendProgress env st (sendAll env st cs) := by
  induction cs generalizing st with
  | nil => exact sendProgress_same env st
  | cons c rest ih =>
    cases ha : env.accepts st.attempts with
    | true =>
      simp only [sendAll, sendChange, ha]
      have hstep : st.attempts ≤ st.attempts + 1 ∧
          NoFailedSends env st.attempts (st.attempts + 1) ∧
          (st.sent ++ [c]).length + st.attempts = st.sent.length + (st.attempts + 1) := by
        refine ⟨Nat.le_succ _, ?_, by simp; omega⟩
        intro j hj1 hj2
        have hj : j = st.attempts := by omega
        rw [hj]; exact ha
      exact sendProgress_compose hstep (ih ⟨st.attempts + 1, st.sent ++ [c]⟩)
    | false =>
      simp only [sendAll, sendChange, ha]
      refine Or.inr ⟨rfl, Nat.lt_succ_self _, ?_, ?_, ?_⟩
      · show env.accepts (st.attempts + 1 - 1) = false
        simpa using ha
      · show NoFailedSends env st.attempts (st.attempts + 1 - 1)
        intro j hj1 hj2
        exact absurd hj2 (by omega)
      · show st.sent.length + st.attempts + 1 = st.sent.length + (st.attempts + 1)
        omega

/-- Processing one record satisfies the progress invariant. -/
theorem processRecord_progress (env : WatchEnv) (opts : WatchOptions) (st : SendState)
    (record : ChangeRecord) : SendProgress env st (processRecord env opts st record) := by
  have hAfterCp : ∀ st1 : SendState,
      SendProgress env st1
        (if opts.content.band WatchCheckpoints = WatchCheckpoints then
          sendAll env st1 (record.heartbeatRecords.map mkCheckpointChange)
        else RunRes.ok st1) := by
    intro st1
    by_cases hcp : opts.content.band WatchCheckpoints = WatchCheckpoints
    · rw [if_pos hcp]; exact sendAll_progress env st1 _
    · rw [if_neg hcp]; exact sendProgress_same env st1
  unfold processRecord
  cases hb : buildTracked env.codecs (newChanges opts.content) record.dataChangeRecords with
  | panicked s => exact sendProgress_same env st
  | failed e => exact Or.inl (sendProgress_same env st)
  | ok tracked =>
    dsimp only
    cases hti : tracked.isEmpty with
    | true =>
      exact hAfterCp st
    | false =>
      simp only [Bool.false_eq_true, if_false]
      have h1 := sendAll_progress env st tracked.asRevisionChanges
      cases hsa : sendAll env st tracked.asRevisionChanges with
      | ok st1 =>
        rw [hsa] at h1
        exact sendProgress_compose h1 (hAfterCp st1)
      | stopErr e st1 =>
        rw [hsa] at h1
        exact h1
      | stopPanic site st1 => exact absurd hsa (fun hx => sendAll_no_panic hx)

/-- Processing a batch satisfies the progress invariant. -/
theorem processRecords_progress (env : WatchEnv) (opts : WatchOptions) (st : SendState)
    (records : List ChangeRecord) : SendProgress env st (processRecords env opts st records) := by
  induction records generalizing st with
  | nil => exact sendProgress_same env st
  | cons r rest ih =>
    have h1 := processRecord_progress env opts st r
    cases hr : processRecord env opts st r with
    | ok st' =>
      rw [hr] at h1
      simp only [processRecords, hr]
      exact sendProgress_compose h1 (ih st')
    | stopErr e st' => rw [hr] at h1; simp only [processRecords, hr]; exact h1
    | stopPanic site st' => rw [hr] at h1; simp only [processRecords, hr]; exact h1

/-- The read loop satisfies the progress invariant. -/
theorem readLoop_progress (env : WatchEnv) (opts : WatchOptions) (st : SendState)
    (batches : List ReadResult) : SendProgress env st (readLoop env opts st batches) := by
  induction batches generalizing st with
  | nil => exact sendProgress_same env st
  | cons b rest ih =>
    have h1 := processRecords_progress env opts st b.changeRecords
    cases hr : processRecords env opts st b.changeRecords with
    | ok st' =>
      rw [hr] at h1
      simp only [readLoop, hr]
      exact sendProgress_compose h1 (ih st')
    | stopErr e st' => rw [hr] at h1; simp only [readLoop, hr]; exact h1
    | stopPanic site st' => rw [hr] at h1; simp only [readLoop, hr]; exact h1

/-! ### Claim C2 — non-blocking delivery and backpressure disconnect -/

/-- C2: delivery is a non-blocking attempt; whenever the bounded updates
queue (capacity 10) is full at the moment of an attempted send — the
acceptance oracle rejects an attempt the session actually made — the
session terminates at that very attempt: the error channel receives the
canonical disconnect error exactly once (the cancellation signal not
being active), the failed attempt is the session's last, and no change
set is delivered at or after it. -/
theorem c2_backpressure_disconnect (env : WatchEnv) (db : String) (rev : DatastoreRevision)
    (opts : WatchOptions) (i : Nat)
    (hc : env.ctxCanceled = false)
    (hfull : env.accepts i = false)
    (hmade : i < (watch env db rev opts).attempts) :
    (watch env db rev opts).errsSent = [.watchDisconnectedErr] ∧
      (watch env db rev opts).updatesSent.length = i ∧
      i + 1 = (watch env db rev opts).attempts ∧
      watchBufferCapacity = 10 := by
  revert hmade
  unfold watch
  cases hdb : parseDatabaseName db with
  | none => intro hmade; exact absurd hmade (Nat.not_lt_zero i)
  | some v =>
    cases rev with
    | otherImpl tag => intro hmade; exact absurd hmade (Nat.not_lt_zero i)
    | decimal d =>
      cases env.openErr with
      | some msg => intro hmade; exact absurd hmade (Nat.not_lt_zero i)
      | none =>
        have hprog := readLoop_progress env opts ⟨0, []⟩ env.batches
        cases hLoop : readLoop env opts ⟨0, []⟩ env.batches with
        | ok st =>
          rw [hLoop] at hprog
          obtain ⟨hle, hok, hlen⟩ := hprog
          cases env.readReturnErr with
          | some msg =>
            intro hmade
            have := hok i (Nat.zero_le i) hmade
            rw [hfull] at this; cases this
          | none =>
            intro hmade
            have := hok i (Nat.zero_le i) hmade
            rw [hfull] at this; cases this
        | stopPanic site st =>
          rw [hLoop] at hprog
          obtain ⟨hle, hok, hlen⟩ := hprog
          intro hmade
          have := hok i (Nat.zero_le i) hmade
          rw [hfull] at this; cases this
        | stopErr e st =>
          rw [hLoop] at hprog
          rcases hprog with ⟨hle, hok, hlen⟩ | ⟨he, hlt, hfailLast, hok, hlen⟩
          · intro hmade
            have := hok i (Nat.zero_le i) hmade
            rw [hfull] at this; cases this
          · subst he
            intro hmade
            have hi : ¬ i < st.attempts - 1 := by
              intro hi
              have := hok i (Nat.zero_le i) hi
              rw [hfull] at this; cases this
            refine ⟨by simp [sendErrorValue, hc], ?_, ?_, rfl⟩
            · show st.sent.length = i
              simp only [SendState.attempts, SendState.sent, List.length_nil] at hlen hlt hmade hi
              omega
            · show i + 1 = st.attempts
              simp only [SendState.attempts, SendState.sent, List.length_nil] at hlen hlt hmade hi
              omega

/-- Witness for C2 at a concrete input: a session delivering one data
change set and one checkpoint where only the first send attempt finds
room terminates at the second attempt with exactly the disconnect error
and exactly the first change set delivered. -/
theorem c2_backpressure_disconnect_witness :
    sampleBackpressureEnv.ctxCanceled = false ∧
      sampleBackpressureEnv.accepts 1 = false ∧
      1 < (watch sampleBackpressureEnv sampleDB (.decimal 0) sampleOpts).attempts ∧
      ((watch sampleBackpressureEnv sampleDB (.decimal 0) sampleOpts).errsSent
          = [.watchDisconnectedErr] ∧
        (watch sampleBackpressureEnv sampleDB (.decimal 0) sampleOpts).updatesSent.length = 1 ∧
        1 + 1 = (watch sampleBackpressureEnv sampleDB (.decimal 0) sampleOpts).attempts ∧
        watchBufferCapacity = 10) :=
  ⟨by decide, by decide, by decide,
    c2_backpressure_disconnect sampleBackpressureEnv sampleDB (.decimal 0) sampleOpts 1
      (by decide) (by decide) (by decide)⟩

/-! Checkpoint-gating lemmas. -/

/-- When every attempt finds room, the delivery loop delivers the whole
list in order. -/
theorem sendAll_all_accepted {env : WatchEnv} (hacc : ∀ j, env.accepts j = true)
    (st : SendState) (cs : List RevisionChanges) :
    sendAll env st cs = .ok ⟨st.attempts + cs.length, st.sent ++ cs⟩ := by
  induction cs generalizing st with
  | nil => simp [sendAll]
  | cons c rest ih =>
    simp only [sendAll, sendChange, hacc st.attempts, if_true]
    rw [ih ⟨st.attempts + 1, st.sent ++ [c]⟩]
    simp only [RunRes.ok.injEq, SendState.mk.injEq]
    constructor
    · simp; omega
    · simp

/-- Rendered revision change sets never carry the checkpoint flag. -/
theorem asRevisionChanges_not_checkpoint {t : TrackedChanges} {c : RevisionChanges}
    (hc : c ∈ t.asRevisionChanges) : c.isCheckpoint = false := by
  simp only [TrackedChanges.asRevisionChanges, List.mem_map] at hc
  obtain ⟨p, hp, hcp⟩ := hc
  rw [hcp.symm]

/-- The delivery loop preserves "no delivered set is a checkpoint" when
everything it is given is data. -/
theorem sendAll_preserves_nocp {env : WatchEnv} {st : SendState} {cs : List RevisionChanges}
    (hst : ∀ c ∈ st.sent, c.isCheckpoint = false)
    (hcs : ∀ c ∈ cs, c.isCheckpoint = false) :
    (∀ st', sendAll env st cs = .ok st' → ∀ c ∈ st'.sent, c.isCheckpoint = false) ∧
      (∀ e st', sendAll env st cs = .stopErr e st' → ∀ c ∈ st'.sent, c.isCheckpoint = false) ∧
      (∀ site st', sendAll env st cs = .stopPanic site st' →
        ∀ c ∈ st'.sent, c.isCheckpoint = false) := by
  induction cs generalizing st with
  | nil =>
    refine ⟨?_, ?_, ?_⟩
    · intro st' h; cases h; exact hst
    · intro e st' h; cases h
    · intro site st' h; cases h
  | cons c rest ih =>
    cases ha : env.accepts st.attempts with
    | true =>
      simp only [sendAll, sendChange, ha]
      refine ih ?_ ?_
      · intro x hx
        rcases List.mem_append.mp hx with hx | hx
        · exact hst x hx
        · rw [List.mem_singleton.mp hx]
          exact hcs c (List.mem_cons_self c rest)
      · intro x hx
        exact hcs x (List.mem_cons_of_mem c hx)
    | false =>
      simp only [sendAll, sendChange, ha]
      refine ⟨?_, ?_, ?_⟩
      · intro st' h; cases h
      · intro e st' h; cases h; exact hst
      · intro site st' h; cases h

/-- When checkpoints are not requested the heartbeat guard in the record
processing is disabled. -/
theorem checkpoint_guard_off {content : ContentMask} (h : content.checkpoints = false) :
    ¬(content.band WatchCheckpoints = WatchCheckpoints) := by
  intro hx
  have := congrArg ContentMask.checkpoints hx
  simp [ContentMask.band, WatchCheckpoints, h] at this

/-- Processing one record while checkpoints are not requested preserves
"no delivered set is a checkpoint". -/
theorem processRecord_preserves_nocp {env : WatchEnv} {opts : WatchOptions} {st : SendState}
    {record : ChangeRecord} (hcpbit : opts.content.checkpoints = false)
    (hst : ∀ c ∈ st.sent, c.isCheckpoint = false) :
    (∀ st', processRecord env opts st record = .ok st' →
        ∀ c ∈ st'.sent, c.isCheckpoint = false) ∧
      (∀ e st', processRecord env opts st record = .stopErr e st' →
        ∀ c ∈ st'.sent, c.isCheckpoint = false) ∧
      (∀ site st', processRecord env opts st record = .stopPanic site st' →
        ∀ c ∈ st'.sent, c.isCheckpoint = false) := by
  unfold processRecord
  cases hb : buildTracked env.codecs (newChanges opts.content) record.dataChangeRecords with
  | panicked s =>
    refine ⟨?_, ?_, ?_⟩
    · intro st' h; cases h
    · intro e st' h; cases h
    · intro site st' h; cases h; exact hst
  | failed e0 =>
    refine ⟨?_, ?_, ?_⟩
    · intro st' h; cases h
    · intro e st' h; cases h; exact hst
    · intro site st' h; cases h
  | ok tracked =>
    dsimp only
    simp only [if_neg (checkpoint_guard_off hcpbit)]
    cases hti : tracked.isEmpty with
    | true =>
      refine ⟨?_, ?_, ?_⟩
      · intro st' h; cases h; exact hst
      · intro e st' h; cases h
      · intro site st' h; cases h
    | false =>
      have hsp := @sendAll_preserves_nocp env st tracked.asRevisionChanges hst
          (fun c hc => asRevisionChanges_not_checkpoint hc)
      cases hsa : sendAll env st tracked.asRevisionChanges with
      | ok st1 =>
        refine ⟨?_, ?_, ?_⟩
        · intro st' h; cases h; exact hsp.1 st1 hsa
        · intro e st' h; cases h
        · intro site st' h; cases h
      | stopErr e1 st1 =>
        refine ⟨?_, ?_, ?_⟩
        · intro st' h; cases h
        · intro e st' h; cases h; exact hsp.2.1 e1 st1 hsa
        · intro site st' h; cases h
      | stopPanic site1 st1 => exact absurd hsa (fun hx => sendAll_no_panic hx)

/-- Processing a batch while checkpoints are not requested preserves
"no delivered set is a checkpoint". -/
theorem processRecords_preserves_nocp {env : WatchEnv} {opts : WatchOptions} {st : SendState}
    {records : List ChangeRecord} (hcpbit : opts.content.checkpoints = false)
    (hst : ∀ c ∈ st.sent, c.isCheckpoint = false) :
    (∀ st', processRecords env opts st records = .ok st' →
        ∀ c ∈ st'.sent, c.isCheckpoint = false) ∧
      (∀ e st', processRecords env opts st records = .stopErr e st' →
        ∀ c ∈ st'.sent, c.isCheckpoint = false) ∧
      (∀ site st', processRecords env opts st records = .stopPanic site st' →
        ∀ c ∈ st'.sent, c.isCheckpoint = false) := by
  induction records generalizing st with
  | nil =>
    refine ⟨?_, ?_, ?_⟩
    · intro st' h; cases h; exact hst
    · intro e st' h; cases h
    · intro site st' h; cases h
  | cons r rest ih =>
    have hr := @processRecord_preserves_nocp env opts st r hcpbit hst
    cases hrec : processRecord env opts st r with
    | ok st1 =>
      simp only [processRecords, hrec]
      exact ih (hr.1 st1 hrec)
    | stopErr e1 st1 =>
      simp only [processRecords, hrec]
      refine ⟨?_, ?_, ?_⟩
      · intro st' h; cases h
      · intro e st' h; cases h; exact hr.2.1 e1 st1 hrec
      · intro site st' h; cases h
    | stopPanic site1 st1 =>
      simp only [processRecords, hrec]
      refine ⟨?_, ?_, ?_⟩
      · intro st' h; cases h
      · intro e st' h; cases h
      · intro site st' h; cases h; exact hr.2.2 site1 st1 hrec

/-- The read loop preserves "no delivered set is a checkpoint" when
checkpoints are not requested. -/
theorem readLoop_preserves_nocp {env : WatchEnv} {opts : WatchOptions} {st : SendState}
    {batches : List ReadResult} (hcpbit : opts.content.checkpoints = false)
    (hst : ∀ c ∈ st.sent, c.isCheckpoint = false) :
    (∀ st', readLoop env opts st batches = .ok st' →
        ∀ c ∈ st'.sent, c.isCheckpoint = false) ∧
      (∀ e st', readLoop env opts st batches = .stopErr e st' →
        ∀ c ∈ st'.sent, c.isCheckpoint = false) ∧
      (∀ site st', readLoop env opts st batches = .stopPanic site st' →
        ∀ c ∈ st'.sent, c.isCheckpoint = false) := by
  induction batches generalizing st with
  | nil =>
    refine ⟨?_, ?_, ?_⟩
    · intro st' h; cases h; exact hst
    · intro e st' h; cases h
    · intro site st' h; cases h
  | cons b rest ih =>
    have hr := @processRecords_preserves_nocp env opts st b.changeRecords hcpbit hst
    cases hrec : processRecords env opts st b.changeRecords with
    | ok st1 =>
      simp only [readLoop, hrec]
      exact ih (hr.1 st1 hrec)
    | stopErr e1 st1 =>
      simp only [readLoop, hrec]
      refine ⟨?_, ?_, ?_⟩
      · intro st' h; cases h
      · intro e st' h; cases h; exact hr.2.1 e1 st1 hrec
      · intro site st' h; cases h
    | stopPanic site1 st1 =>
      simp only [readLoop, hrec]
      refine ⟨?_, ?_, ?_⟩
      · intro st' h; cases h
      · intro e st' h; cases h
      · intro site st' h; cases h; exact hr.2.2 site1 st1 hrec

/-- Processing one record with an always-accepting consumer and the
checkpoint bit set delivers the rendered data change sets followed by one
checkpoint per heartbeat record. -/
theorem processRecord_flowing {env : WatchEnv} {opts : WatchOptions} {st : SendState}
    {record : ChangeRecord} {tracked : TrackedChanges}
    (hacc : ∀ j, env.accepts j = true)
    (hcp : opts.content.band WatchCheckpoints = WatchCheckpoints)
    (hb : buildTracked env.codecs (newChanges opts.content) record.dataChangeRecords
      = .ok tracked) :
    processRecord env opts st record
      = .ok ⟨st.attempts + (renderedData tracked).length + record.heartbeatRecords.length,
             st.sent ++ renderedData tracked
               ++ record.heartbeatRecords.map mkCheckpointChange⟩ := by
  unfold processRecord
  rw [hb]
  dsimp only
  simp only [if_pos hcp]
  cases hti : tracked.isEmpty with
  | true =>
    simp only [reduceIte]
    rw [sendAll_all_accepted hacc]
    simp [renderedData, hti]
  | false =>
    simp only [Bool.false_eq_true, reduceIte]
    rw [sendAll_all_accepted hacc]
    dsimp only
    rw [sendAll_all_accepted hacc]
    simp [renderedData, hti, List.append_assoc]

/-! ### Claim C8 — checkpoint gating -/

/-- C8: when the checkpoints content bit is clear, no delivered change
set ever carries the checkpoint flag (heartbeat records produce nothing);
when the bit is set and the consumer keeps up, processing a record
delivers exactly one checkpoint change set per heartbeat record,
positioned after all the record's data change sets, and each checkpoint
set carries the heartbeat's revision with the checkpoint flag and no
relationship or schema data. -/
theorem c8_checkpoint_gating :
    (∀ (env : WatchEnv) (db : String) (rev : DatastoreRevision) (opts : WatchOptions),
      opts.content.checkpoints = false →
      ∀ c ∈ (watch env db rev opts).updatesSent, c.isCheckpoint = false) ∧
    (∀ (env : WatchEnv) (opts : WatchOptions) (st : SendState) (record : ChangeRecord)
        (tracked : TrackedChanges),
      (∀ j, env.accepts j = true) →
      opts.content.band WatchCheckpoints = WatchCheckpoints →
      buildTracked env.codecs (newChanges opts.content) record.dataChangeRecords = .ok tracked →
      processRecord env opts st record
        = .ok ⟨st.attempts + (renderedData tracked).length + record.heartbeatRecords.length,
               st.sent ++ renderedData tracked
                 ++ record.heartbeatRecords.map mkCheckpointChange⟩) ∧
    (∀ hbr : HeartbeatRecord,
      (mkCheckpointChange hbr).isCheckpoint = true ∧
      (mkCheckpointChange hbr).revision = revisionFromTimestamp hbr.timestamp ∧
      (mkCheckpointChange hbr).relationshipChanges = [] ∧
      (mkCheckpointChange hbr).changedDefinitions = [] ∧
      (mkCheckpointChange hbr).deletedNamespaces = [] ∧
      (mkCheckpointChange hbr).deletedCaveats = []) := by
  refine ⟨?_, ?_, ?_⟩
  · intro env db rev opts hcpbit
    have hnil : ∀ c ∈ ([] : List RevisionChanges), c.isCheckpoint = false := by
      intro x hx; cases hx
    unfold watch
    cases hdb : parseDatabaseName db with
    | none => intro c hc; exact absurd hc (List.not_mem_nil c)
    | some v =>
      cases rev with
      | otherImpl tag => intro c hc; exact absurd hc (List.not_mem_nil c)
      | decimal d =>
        cases env.openErr with
        | some msg => intro c hc; exact absurd hc (List.not_mem_nil c)
        | none =>
          have hloop := @readLoop_preserves_nocp env opts ⟨0, []⟩ env.batches hcpbit hnil
          cases hLoop : readLoop env opts ⟨0, []⟩ env.batches with
          | ok st =>
            cases env.readReturnErr with
            | some msg => intro c hc; exact hloop.1 st hLoop c hc
            | none => intro c hc; exact hloop.1 st hLoop c hc
          | stopErr e st => intro c hc; exact hloop.2.1 e st hLoop c hc
          | stopPanic site st => intro c hc; exact hloop.2.2 site st hLoop c hc
  · intro env opts st record tracked hacc hcp hb
    exact processRecord_flowing hacc hcp hb
  · intro hbr
    exact ⟨rfl, rfl, rfl, rfl, rfl, rfl⟩

/-- Witness for C8 at concrete inputs: with checkpoints not requested the
delivered data change set of `sampleRecord` has the checkpoint flag
clear; with checkpoints requested and an always-accepting consumer,
processing `sampleRecord` delivers its data change sets followed by one
checkpoint per heartbeat; and the checkpoint built from heartbeat
timestamp 9 carries the flag. -/
theorem c8_checkpoint_gating_witness :
    (sampleOptsNoCp.content.checkpoints = false ∧
      sampleDataChangeSet ∈
        (watch sampleFlowingEnv sampleDB (.decimal 0) sampleOptsNoCp).updatesSent ∧
      sampleDataChangeSet.isCheckpoint = false) ∧
    (processRecord sampleFlowingEnv sampleOpts ⟨0, []⟩ sampleRecord
      = .ok ⟨0 + (renderedData sampleTracked).length + sampleRecord.heartbeatRecords.length,
             [] ++ renderedData sampleTracked
               ++ sampleRecord.heartbeatRecords.map mkCheckpointChange⟩) ∧
    (mkCheckpointChange ⟨9⟩).isCheckpoint = true :=
  ⟨⟨rfl, by decide,
    c8_checkpoint_gating.1 sampleFlowingEnv sampleDB (.decimal 0) sampleOptsNoCp rfl
      sampleDataChangeSet (by decide)⟩,
   c8_checkpoint_gating.2.1 sampleFlowingEnv sampleOpts ⟨0, []⟩ sampleRecord sampleTracked
     (fun j => rfl) (by decide) (by decide),
   (c8_checkpoint_gating.2.2 ⟨9⟩).1⟩

/-! Sorting lemmas for the revision aggregator. -/

/-- Inserting into the sorted entry list is a permutation of consing. -/
theorem insertByRevision_perm (p : Nat × RevisionData) (l : List (Nat × RevisionData)) :
    List.Perm (insertByRevision p l) (p :: l) := by
  induction l with
  | nil => exact List.Perm.refl _
  | cons q rest ih =>
    by_cases h : p.1 < q.1
    · rw [insertByRevision, if_pos h]
    · rw [insertByRevision, if_neg h]
      exact (ih.cons q).trans (List.Perm.swap p q rest)

/-- Sorting the entry list is a permutation. -/
theorem sortEntries_perm (l : List (Nat × RevisionData)) :
    List.Perm (sortEntries l) l := by
  induction l with
  | nil => exact List.Perm.refl _
  | cons p rest ih => exact (insertByRevision_perm p (sortEntries rest)).trans (ih.cons p)

/-- Insertion preserves sortedness by revision. -/
theorem insertByRevision_pairwise {p : Nat × RevisionData} {l : List (Nat × RevisionData)}
    (h : List.Pairwise (fun a b => a.1 ≤ b.1) l) :
    List.Pairwise (fun a b => a.1 ≤ b.1) (insertByRevision p l) := by
  induction l with
  | nil => simp [insertByRevision]
  | cons q rest ih =>
    rw [List.pairwise_cons] at h
    obtain ⟨hq, hrest⟩ := h
    by_cases hlt : p.1 < q.1
    · rw [insertByRevision, if_pos hlt]
      refine List.Pairwise.cons ?_ (List.Pairwise.cons hq hrest)
      intro x hx
      rcases List.mem_cons.mp hx with rfl | hx
      · exact le_of_lt hlt
      · exact le_trans (le_of_lt hlt) (hq x hx)
    · rw [insertByRevision, if_neg hlt]
      refine List.Pairwise.cons ?_ (ih hrest)
      intro x hx
      rcases List.mem_cons.mp ((insertByRevision_perm p rest).mem_iff.mp hx) with rfl | hx
      · exact le_of_not_lt hlt
      · exact hq x hx

/-- The sorted entry list is sorted by revision. -/
theorem sortEntries_pairwise (l : List (Nat × RevisionData)) :
    List.Pairwise (fun a b => a.1 ≤ b.1) (sortEntries l) := by
  induction l with
  | nil => simp [sortEntries]
  | cons p rest ih => exact insertByRevision_pairwise ih

/-- Keys after a merge-update: unchanged when the revision was present,
appended otherwise. -/
theorem updateEntries_keys (rev : Nat) (f : RevisionData → RevisionData) :
    ∀ l : List (Nat × RevisionData),
      (updateEntries rev f l).map Prod.fst
        = if rev ∈ l.map Prod.fst then l.map Prod.fst else l.map Prod.fst ++ [rev]
  | [] => by simp [updateEntries]
  | (r, d) :: rest => by
    by_cases h : r = rev
    · subst h
      simp [updateEntries]
    · rw [updateEntries, if_neg h]
      by_cases hmem : rev ∈ rest.map Prod.fst
      · simp [updateEntries_keys rev f rest, hmem, Ne.symm h]
      · simp [updateEntries_keys rev f rest, hmem, Ne.symm h]

/-- A merge-update preserves key distinctness. -/
theorem updateEntries_keys_nodup {rev : Nat} {f : RevisionData → RevisionData}
    {l : List (Nat × RevisionData)} (h : (l.map Prod.fst).Nodup) :
    ((updateEntries rev f l).map Prod.fst).Nodup := by
  rw [updateEntries_keys]
  split
  · exact h
  · rename_i hmem
    simp [List.nodup_append, h, hmem]

/-- The updated revision is among the keys after a merge-update. -/
theorem updateEntries_keys_mem (rev : Nat) (f : RevisionData → RevisionData)
    (l : List (Nat × RevisionData)) : rev ∈ (updateEntries rev f l).map Prod.fst := by
  rw [updateEntries_keys]
  split
  · rename_i hmem; exact hmem
  · simp

/-- A merge-update keeps every existing key. -/
theorem updateEntries_keys_mono {r rev : Nat} {f : RevisionData → RevisionData}
    {l : List (Nat × RevisionData)} (h : r ∈ l.map Prod.fst) :
    r ∈ (updateEntries rev f l).map Prod.fst := by
  rw [updateEntries_keys]
  split
  · exact h
  · exact List.mem_append_left _ h

/-- Aggregator operations do not change the content mask. -/
theorem applyAggOp_content (t : TrackedChanges) (op : AggOp) :
    (applyAggOp t op).content = t.content := by
  cases op <;>
    simp [applyAggOp, TrackedChanges.addRelationshipChange, TrackedChanges.addDeletedNamespace,
      TrackedChanges.addDeletedCaveat, TrackedChanges.addChangedDefinition,
      TrackedChanges.update] <;>
    split <;> rfl

/-- Aggregator operations preserve key distinctness. -/
theorem applyAggOp_keys_nodup {t : TrackedChanges} (h : (t.entries.map Prod.fst).Nodup)
    (op : AggOp) : ((applyAggOp t op).entries.map Prod.fst).Nodup := by
  cases op <;>
    simp only [applyAggOp, TrackedChanges.addRelationshipChange,
      TrackedChanges.addDeletedNamespace, TrackedChanges.addDeletedCaveat,
      TrackedChanges.addChangedDefinition, TrackedChanges.update] <;>
    split <;> first | exact updateEntries_keys_nodup h | exact h

/-- Aggregator operations keep every existing key. -/
theorem applyAggOp_keys_mono {t : TrackedChanges} {r : Nat} (h : r ∈ t.entries.map Prod.fst)
    (op : AggOp) : r ∈ (applyAggOp t op).entries.map Prod.fst := by
  cases op <;>
    simp only [applyAggOp, TrackedChanges.addRelationshipChange,
      TrackedChanges.addDeletedNamespace, TrackedChanges.addDeletedCaveat,
      TrackedChanges.addChangedDefinition, TrackedChanges.update] <;>
    split <;> first | exact updateEntries_keys_mono h | exact h

/-- An operation that survives the filter lands its revision among the
keys. -/
theorem applyAggOp_keys_mem {t : TrackedChanges} {op : AggOp}
    (h : op.survives t.content = true) :
    op.rev ∈ (applyAggOp t op).entries.map Prod.fst := by
  cases op <;>
    simp only [AggOp.survives] at h <;>
    simp only [applyAggOp, AggOp.rev, TrackedChanges.addRelationshipChange,
      TrackedChanges.addDeletedNamespace, TrackedChanges.addDeletedCaveat,
      TrackedChanges.addChangedDefinition, TrackedChanges.update, h, if_true] <;>
    exact updateEntries_keys_mem _ _ _

/-- Folding aggregator operations preserves the content mask. -/
theorem foldl_applyAggOp_content :
    ∀ (ops : List AggOp) (t : TrackedChanges),
      (List.foldl applyAggOp t ops).content = t.content
  | [], _ => rfl
  | op :: rest, t => by
    rw [List.foldl_cons, foldl_applyAggOp_content rest (applyAggOp t op),
      applyAggOp_content]

/-- Folding aggregator operations preserves key distinctness. -/
theorem foldl_applyAggOp_keys_nodup :
    ∀ (ops : List AggOp) (t : TrackedChanges), (t.entries.map Prod.fst).Nodup →
      ((List.foldl applyAggOp t ops).entries.map Prod.fst).Nodup
  | [], _, h => h
  | op :: rest, t, h =>
    foldl_applyAggOp_keys_nodup rest (applyAggOp t op) (applyAggOp_keys_nodup h op)

/-- Folding aggregator operations keeps every existing key. -/
theorem foldl_applyAggOp_keys_mono :
    ∀ (ops : List AggOp) (t : TrackedChanges) (r : Nat), r ∈ t.entries.map Prod.fst →
      r ∈ (List.foldl applyAggOp t ops).entries.map Prod.fst
  | [], _, _, h => h
  | op :: rest, t, r, h =>
    foldl_applyAggOp_keys_mono rest (applyAggOp t op) r (applyAggOp_keys_mono h op)

/-- Every surviving operation's revision is among the folded keys. -/
theorem foldl_applyAggOp_keys_complete :
    ∀ (ops : List AggOp) (t : TrackedChanges), ∀ op ∈ ops, op.survives t.content = true →
      op.rev ∈ (List.foldl applyAggOp t ops).entries.map Prod.fst
  | [], _, op, h, _ => absurd h (List.not_mem_nil op)
  | o :: rest, t, op, h, hs => by
    rcases List.mem_cons.mp h with rfl | h
    · exact foldl_applyAggOp_keys_mono rest (applyAggOp t op) op.rev (applyAggOp_keys_mem hs)
    · exact foldl_applyAggOp_keys_complete rest (applyAggOp t o) op h
        (by rw [applyAggOp_content]; exact hs)

/-- The revisions of the rendered change sets are the sorted keys. -/
theorem asRevisionChanges_rev_map (t : TrackedChanges) :
    t.asRevisionChanges.map RevisionChanges.revision = (sortEntries t.entries).map Prod.fst := by
  simp only [TrackedChanges.asRevisionChanges, List.map_map]
  rfl

/-! ### Claim C7 — ordering and merging -/

/-- C7: for every sequence of aggregator add operations on a fresh
accumulator, the rendered revision change sets are strictly ascending by
revision; their revisions are exactly the accumulator's distinct
revisions (one merged set per revision); and every operation surviving
the content filter has its revision represented among the rendered
sets. -/
theorem c7_ordering_and_merging (content : ContentMask) (ops : List AggOp) :
    List.Pairwise (fun a b => a.revision < b.revision)
        ((applyAggOps content ops).asRevisionChanges) ∧
      List.Perm (((applyAggOps content ops).asRevisionChanges).map RevisionChanges.revision)
        ((applyAggOps content ops).entries.map Prod.fst) ∧
      (∀ op ∈ ops, AggOp.survives content op = true →
        op.rev ∈ ((applyAggOps content ops).asRevisionChanges).map RevisionChanges.revision) := by
  have hnodup : (((applyAggOps content ops).entries).map Prod.fst).Nodup :=
    foldl_applyAggOp_keys_nodup ops (newChanges content) (by simp [newChanges])
  have hperm : List.Perm (sortEntries (applyAggOps content ops).entries)
      ((applyAggOps content ops).entries) := sortEntries_perm _
  have hpermmap := hperm.map Prod.fst
  refine ⟨?_, ?_, ?_⟩
  · have hle := sortEntries_pairwise (applyAggOps content ops).entries
    have hnd2 : ((sortEntries (applyAggOps content ops).entries).map Prod.fst).Nodup :=
      hpermmap.nodup_iff.mpr hnodup
    have hne : List.Pairwise (fun a b : Nat × RevisionData => a.1 ≠ b.1)
        (sortEntries (applyAggOps content ops).entries) := List.pairwise_map.mp hnd2
    have hstrict := (hle.and hne).imp fun hab => lt_of_le_of_ne hab.1 hab.2
    unfold TrackedChanges.asRevisionChanges
    exact List.pairwise_map.mpr hstrict
  · rw [asRevisionChanges_rev_map]
    exact hpermmap
  · intro op hop hs
    rw [asRevisionChanges_rev_map]
    exact hpermmap.mem_iff.mpr
      (foldl_applyAggOp_keys_complete ops (newChanges content) op hop hs)

/-- Witness for C7 at a concrete input: three operations at interleaved
revisions 5, 3, 5 render strictly ascending merged sets, and the first
operation's revision is represented. -/
theorem c7_ordering_and_merging_witness :
    List.Pairwise (fun a b => a.revision < b.revision)
        ((applyAggOps sampleOpts.content sampleAggOps).asRevisionChanges) ∧
      AggOp.rel 5 sampleTuple .touch ∈ sampleAggOps ∧
      AggOp.survives sampleOpts.content (.rel 5 sampleTuple .touch) = true ∧
      (AggOp.rel 5 sampleTuple .touch).rev ∈
        ((applyAggOps sampleOpts.content sampleAggOps).asRevisionChanges).map
          RevisionChanges.revision :=
  ⟨(c7_ordering_and_merging sampleOpts.content sampleAggOps).1,
   by decide, by decide,
   (c7_ordering_and_merging sampleOpts.content sampleAggOps).2.2
     (.rel 5 sampleTuple .touch) (by decide) (by decide)⟩

end SpannerWatch
